import Mathlib

/-!
Verification of the ajs-clawbot enforcement layer.

This file gives a shallow embedding (over `List Char` strings) of the
security-relevant parts of the repository:

* the security pattern catalog (`security.secrets.ts`),
* the jailed filesystem capability (`filesystem.ts`),
* the LLM capability budgets (`llm.ts`),
* the sliding-window rate limiter (`rate-limiter.ts`),
* the trust-level policy (`trust-levels.ts`),
* the skill loader's validation (`skill-loader.ts`),
* the executor's orchestration (`safe-executor.ts`),

and proves (or refutes, with explicit counterexamples) the specified
properties of these components.

JavaScript regular expressions from the source are transcribed into a
small derivative-based matcher (`Rx`); each transcription is annotated
with the original literal regex.
-/

namespace Claw

/-- Strings are modelled as lists of characters (JS strings). -/
abbrev Str := List Char

/-- Coerce a Lean string literal to the model's string type. -/
def sOf (s : String) : Str := s.data

/-- JS `String.prototype.toLowerCase`, restricted to ASCII (all strings
appearing in the modelled code are ASCII). -/
def lowChar (c : Char) : Char :=
  if 65 ≤ c.toNat ∧ c.toNat ≤ 90 then Char.ofNat (c.toNat + 32) else c

/-- Lowercase a whole string. -/
def lowStr (s : Str) : Str := s.map lowChar

/-- The JS whitespace characters relevant for `trim` / `parseInt` / `\s`. -/
def jsWS (c : Char) : Bool :=
  c.toNat = 32 ∨ c.toNat = 9 ∨ c.toNat = 10 ∨ c.toNat = 11 ∨
  c.toNat = 12 ∨ c.toNat = 13 ∨ c.toNat = 160

/-- JS `String.prototype.trim`. -/
def jsTrim (s : Str) : Str :=
  ((s.dropWhile jsWS).reverse.dropWhile jsWS).reverse

/-- ASCII decimal digit test. -/
def isDig (c : Char) : Bool := 48 ≤ c.toNat ∧ c.toNat ≤ 57

/-- Split a string at every character satisfying `p` (JS `split` with a
single-character class: separators are consumed, empty pieces kept). -/
def splitP (p : Char → Bool) : Str → List Str
  | [] => [[]]
  | c :: r =>
    if p c then [] :: splitP p r
    else match splitP p r with
      | [] => [[c]]
      | piece :: rest => (c :: piece) :: rest

/-- Join pieces with a separator character (inverse of `splitP`). -/
def joinC (sep : Char) : List Str → Str
  | [] => []
  | [x] => x
  | x :: r => x ++ sep :: joinC sep r

/-! ### A small regular-expression matcher

JS regexes from the source are transcribed into this syntax in
"full-match" form: `re.test(s)` is rendered by padding the pattern with
`rAll` (that is, `.*`) wherever the original pattern was unanchored. -/

/-- Regular expressions over characters. -/
inductive Rx where
  | fail : Rx
  | eps : Rx
  | cls (f : Char → Bool) : Rx
  | seq (a b : Rx) : Rx
  | alt (a b : Rx) : Rx
  | star (a : Rx) : Rx

/-- Does the expression accept the empty string? -/
def Rx.nul : Rx → Bool
  | .fail => false
  | .eps => true
  | .cls _ => false
  | .seq a b => a.nul && b.nul
  | .alt a b => a.nul || b.nul
  | .star _ => true

/-- Smart sequencing (keeps derivative terms small). -/
def Rx.sq : Rx → Rx → Rx
  | .fail, _ => .fail
  | .eps, b => b
  | a, .eps => a
  | a, b => .seq a b

/-- Smart alternation. -/
def Rx.al : Rx → Rx → Rx
  | .fail, b => b
  | a, .fail => a
  | a, b => .alt a b

/-- Brzozowski derivative. -/
def Rx.drv : Rx → Char → Rx
  | .fail, _ => .fail
  | .eps, _ => .fail
  | .cls f, c => if f c then .eps else .fail
  | .seq a b, c => if a.nul then .al (.sq (a.drv c) b) (b.drv c) else .sq (a.drv c) b
  | .alt a b, c => .al (a.drv c) (b.drv c)
  | .star a, c => .sq (a.drv c) (.star a)

/-- Full-string match. -/
def rxFull (r : Rx) (s : Str) : Bool := (s.foldl Rx.drv r).nul

/-- `.` (any character). -/
def rAny : Rx := .cls (fun _ => true)

/-- `.*`. -/
def rAll : Rx := .star rAny

/-- A single literal character. -/
def rCh (c : Char) : Rx := .cls (fun x => x == c)

/-- A character class given by a list. -/
def rIn (l : List Char) : Rx := .cls (fun x => l.contains x)

/-- `[/\\]` — a path separator. -/
def rSep : Rx := rIn ['/', '\\']

/-- `[^/]`. -/
def rNS : Rx := .cls (fun x => !(x == '/'))

/-- A literal string. -/
def rLit : Str → Rx
  | [] => .eps
  | c :: r => .seq (rCh c) (rLit r)

/-- A literal given as a Lean string. -/
def rStr (s : String) : Rx := rLit s.data

/-- Sequencing a list of expressions. -/
def rCat : List Rx → Rx
  | [] => .eps
  | [r] => r
  | r :: l => .seq r (rCat l)

/-- `a|b`. -/
def rOr (a b : Rx) : Rx := .alt a b

/-- `r?`. -/
def rOpt (r : Rx) : Rx := .alt .eps r

/-- `r+`. -/
def rPlus (r : Rx) : Rx := .seq r (.star r)

/-- `\s` (JS whitespace class). -/
def rWS : Rx := .cls jsWS

/-- `[a-z]`. -/
def rLow : Rx := .cls (fun c => 97 ≤ c.toNat ∧ c.toNat ≤ 122)

/-- `\w` (JS word character). -/
def rW : Rx := .cls (fun c =>
  (48 ≤ c.toNat ∧ c.toNat ≤ 57) ∨ (65 ≤ c.toNat ∧ c.toNat ≤ 90) ∨
  (97 ≤ c.toNat ∧ c.toNat ≤ 122) ∨ c == '_')

/-- `\W` (JS non-word character). -/
def rNW : Rx := .cls (fun c =>
  !((48 ≤ c.toNat ∧ c.toNat ≤ 57) ∨ (65 ≤ c.toNat ∧ c.toNat ≤ 90) ∨
    (97 ≤ c.toNat ∧ c.toNat ≤ 122) ∨ c == '_'))

/-! Pattern-building helpers.  A source pattern `re` with `re.test(s)`
semantics is rendered as a `Str → Bool` function; `ci` composes with
lowercasing to model the `i` flag (pattern literals are then written in
lowercase). -/

/-- Unanchored containment: `re` becomes `.* re .*`. -/
def pHas (body : Rx) : Str → Bool := fun s => rxFull (rCat [rAll, body, rAll]) s

/-- `(^|\/|\\) body …` where `body` handles its own right end. -/
def pBnd (body : Rx) : Str → Bool :=
  fun s => rxFull (rCat [rOpt (rCat [rAll, rSep]), body]) s

/-- `body$` with unanchored start. -/
def pEnd (body : Rx) : Str → Bool := fun s => rxFull (rCat [rAll, body]) s

/-- `^body …` where `body` handles its own right end. -/
def pStart (body : Rx) : Str → Bool := fun s => rxFull body s

/-- Case-insensitive (`i`-flag) wrapper. -/
def ci (p : Str → Bool) : Str → Bool := fun s => p (lowStr s)

/-! ### The dangerous-path table

`DANGEROUS_PATH_PATTERNS` — the list appears verbatim in both
`security.secrets.ts` and `filesystem.ts`; we transcribe it once.
Each entry is annotated with the original regex literal. -/

/-- `(\/|$)` — a slash (then anything) or the end of the string. -/
def rSlashEnd : Rx := rOr (rCat [rCh '/', rAll]) .eps

/-- `(\/|\\|$)` — a separator (then anything) or the end of the string. -/
def rSepEnd : Rx := rOr (rCat [rSep, rAll]) .eps

/-- The dangerous-path patterns (traversal, absolute system paths, home
references, encodings, null bytes). -/
def dangerousPathPats : List (Str → Bool) := [
  pHas (rStr "../"),                                   -- /\.\.\//
  pHas (rStr "..\\"),                                  -- /\.\.\\/
  pEnd (rStr ".."),                                    -- /\.\.$/
  pHas (rCh (Char.ofNat 0)),                           -- /\x00/
  ci (pHas (rStr "%2e%2e")),                           -- /%2e%2e/i
  ci (pHas (rStr "%252e")),                            -- /%252e/i
  pStart (rCat [rStr "/etc", rSlashEnd]),              -- /^\/etc(\/|$)/
  pStart (rCat [rStr "/var", rSlashEnd]),              -- /^\/var(\/|$)/
  pStart (rCat [rStr "/root", rSlashEnd]),             -- /^\/root(\/|$)/
  pStart (rCat [rStr "/home/", rPlus rNS, rStr "/.", rAll]),   -- /^\/home\/[^/]+\/\./
  pStart (rCat [rStr "/Users/", rPlus rNS, rStr "/.", rAll]),  -- /^\/Users\/[^/]+\/\./
  pStart (rCat [rStr "/proc", rSlashEnd]),             -- /^\/proc(\/|$)/
  pStart (rCat [rStr "/sys", rSlashEnd]),              -- /^\/sys(\/|$)/
  pStart (rCat [rStr "/dev", rSlashEnd]),              -- /^\/dev(\/|$)/
  pStart (rCat [rStr "/private/etc", rAll]),           -- /^\/private\/etc/
  pStart (rCat [rStr "/private/var", rAll]),           -- /^\/private\/var/
  pStart (rCat [rCh '~', rSlashEnd])                   -- /^~(\/|$)/
]

/-- Does any dangerous-path pattern match? -/
def isDangerousStr (s : Str) : Bool := dangerousPathPats.any (fun p => p s)

/-! ### The filesystem capability's own blocked list

`ALWAYS_BLOCKED_PATTERNS` from `filesystem.ts` (this list differs from
the catalog in `security.secrets.ts`: it adds `/secret.*key/i` and the
leading-dotfile catch-all, and lacks the catalog's `/secret/i`,
package-manager/history/infra entries, and `node_modules`). -/

/-- `/^\.(?!gitignore$|prettierrc|eslint|editorconfig|vscode)/` —
the hidden-dotfile catch-all, with its negative lookahead rendered
directly. -/
def dotfileCatch (s : Str) : Bool :=
  match s with
  | '.' :: rest =>
      !((rest == sOf "gitignore") ||
        (sOf "prettierrc").isPrefixOf rest ||
        (sOf "eslint").isPrefixOf rest ||
        (sOf "editorconfig").isPrefixOf rest ||
        (sOf "vscode").isPrefixOf rest)
  | _ => false

/-- `ALWAYS_BLOCKED_PATTERNS` (filesystem.ts). -/
def fsAlwaysBlockedPats : List (Str → Bool) := [
  -- Environment and secrets
  ci (pBnd (rCat [rStr ".env", rOr .eps (rCat [rIn ['.', '/', '\\'], rAll])])),
                                                       -- /(^|\/|\\)\.env($|\.|\/|\\)/i
  ci (pBnd (rCat [rStr "secrets.", rAll])),            -- /(^|\/|\\)secrets\./i
  ci (pBnd (rCat [rStr "credentials.", rAll])),        -- /(^|\/|\\)credentials\./i
  ci (pEnd (rCat [rStr ".env.", rPlus rLow])),         -- /\.env\.[a-z]+$/i
  -- SSH keys and config
  pBnd (rCat [rStr ".ssh", rSepEnd]),                  -- /(^|\/|\\)\.ssh(\/|\\|$)/
  pBnd (rCat [rStr "id_rsa", rAll]),                   -- /(^|\/|\\)id_rsa/
  pBnd (rCat [rStr "id_ed25519", rAll]),               -- /(^|\/|\\)id_ed25519/
  pBnd (rCat [rStr "id_ecdsa", rAll]),                 -- /(^|\/|\\)id_ecdsa/
  pBnd (rCat [rStr "id_dsa", rAll]),                   -- /(^|\/|\\)id_dsa/
  pBnd (rStr "authorized_keys"),                       -- /(^|\/|\\)authorized_keys$/
  pBnd (rStr "known_hosts"),                           -- /(^|\/|\\)known_hosts$/
  -- Private keys and certificates
  ci (pEnd (rStr ".pem")),                             -- /\.pem$/i
  ci (pEnd (rStr ".key")),                             -- /\.key$/i
  ci (pEnd (rStr ".p12")),                             -- /\.p12$/i
  ci (pEnd (rStr ".pfx")),                             -- /\.pfx$/i
  ci (pEnd (rStr ".crt")),                             -- /\.crt$/i
  ci (pHas (rCat [rStr "private", rAll, rStr "key"])), -- /private.*key/i
  ci (pHas (rCat [rStr "secret", rAll, rStr "key"])),  -- /secret.*key/i
  -- Git credentials
  pBnd (rStr ".git/config"),                           -- /(^|\/|\\)\.git\/config$/
  pBnd (rStr ".gitconfig"),                            -- /(^|\/|\\)\.gitconfig$/
  pBnd (rStr ".git-credentials"),                      -- /(^|\/|\\)\.git-credentials$/
  -- Package manager tokens
  pBnd (rStr ".npmrc"),                                -- /(^|\/|\\)\.npmrc$/
  pBnd (rCat [rStr ".yarnrc", rAll]),                  -- /(^|\/|\\)\.yarnrc/
  pBnd (rCat [rStr ".pip", rSepEnd]),                  -- /(^|\/|\\)\.pip(\/|\\|$)/
  -- Cloud credentials
  pBnd (rCat [rStr ".aws", rSepEnd]),                  -- /(^|\/|\\)\.aws(\/|\\|$)/
  pBnd (rCat [rStr ".azure", rSepEnd]),                -- /(^|\/|\\)\.azure(\/|\\|$)/
  pBnd (rCat [rStr ".gcloud", rSepEnd]),               -- /(^|\/|\\)\.gcloud(\/|\\|$)/
  pBnd (rCat [rStr ".kube", rSepEnd]),                 -- /(^|\/|\\)\.kube(\/|\\|$)/
  pBnd (rCat [rStr ".config/gcloud", rAll]),           -- /(^|\/|\\)\.config\/gcloud/
  -- Browser data
  ci (pBnd (rStr "cookies")),                          -- /(^|\/|\\)Cookies$/i
  ci (pBnd (rStr "cookies.sqlite")),                   -- /(^|\/|\\)cookies\.sqlite$/i
  ci (pBnd (rStr "login data")),                       -- /(^|\/|\\)Login Data$/i
  ci (pBnd (rStr "web data")),                         -- /(^|\/|\\)Web Data$/i
  ci (pBnd (rStr "history")),                          -- /(^|\/|\\)History$/i
  pBnd (rCat [rStr ".mozilla", rSepEnd]),              -- /(^|\/|\\)\.mozilla(\/|\\|$)/
  pBnd (rCat [rStr ".chrome", rSepEnd]),               -- /(^|\/|\\)\.chrome(\/|\\|$)/
  -- System files
  pBnd (rStr "shadow"),                                -- /(^|\/|\\)shadow$/
  pBnd (rStr "passwd"),                                -- /(^|\/|\\)passwd$/
  pBnd (rCat [rStr "sudoers", rAll]),                  -- /(^|\/|\\)sudoers/
  -- Database files
  ci (pEnd (rStr ".sqlite")),                          -- /\.sqlite$/i
  ci (pEnd (rStr ".sqlite3")),                         -- /\.sqlite3$/i
  ci (pEnd (rStr ".db")),                              -- /\.db$/i
  -- Backup files
  ci (pEnd (rStr ".bak")),                             -- /\.bak$/i
  pEnd (rCh '~'),                                      -- /~$/
  -- Hidden dotfiles catch-all
  dotfileCatch
]

/-! ### The security catalog (`security.secrets.ts`)

`BLOCKED_FILE_PATTERNS`, in source order. -/

/-- `BLOCKED_FILE_PATTERNS` (security.secrets.ts). -/
def catalogFilePats : List (Str → Bool) := [
  -- Environment & secrets
  ci (pBnd (rCat [rStr ".env", rOr .eps (rCat [rIn ['.', '/', '\\'], rAll])])),
                                                       -- /(^|\/|\\)\.env($|\.|\/|\\)/i
  ci (pEnd (rCat [rStr ".env.", rPlus rLow])),         -- /\.env\.[a-z]+$/i
  ci (pBnd (rCat [rStr "secrets.", rAll])),            -- /(^|\/|\\)secrets\./i
  ci (pBnd (rCat [rStr "credentials.", rAll])),        -- /(^|\/|\\)credentials\./i
  ci (pHas (rStr "secret")),                           -- /secret/i
  -- SSH & authentication keys
  pBnd (rCat [rStr ".ssh", rSepEnd]),                  -- /(^|\/|\\)\.ssh(\/|\\|$)/
  pBnd (rCat [rStr "id_rsa", rAll]),                   -- /(^|\/|\\)id_rsa/
  pBnd (rCat [rStr "id_ed25519", rAll]),               -- /(^|\/|\\)id_ed25519/
  pBnd (rCat [rStr "id_ecdsa", rAll]),                 -- /(^|\/|\\)id_ecdsa/
  pBnd (rCat [rStr "id_dsa", rAll]),                   -- /(^|\/|\\)id_dsa/
  pBnd (rStr "authorized_keys"),                       -- /(^|\/|\\)authorized_keys$/
  pBnd (rStr "known_hosts"),                           -- /(^|\/|\\)known_hosts$/
  -- Certificates & private keys
  ci (pEnd (rStr ".pem")),                             -- /\.pem$/i
  ci (pEnd (rStr ".key")),                             -- /\.key$/i
  ci (pEnd (rStr ".p12")),                             -- /\.p12$/i
  ci (pEnd (rStr ".pfx")),                             -- /\.pfx$/i
  ci (pEnd (rStr ".crt")),                             -- /\.crt$/i
  ci (pHas (rCat [rStr "private", rAll, rStr "key"])), -- /private.*key/i
  -- Git credentials
  pBnd (rStr ".git/config"),                           -- /(^|\/|\\)\.git\/config$/
  pBnd (rStr ".gitconfig"),                            -- /(^|\/|\\)\.gitconfig$/
  pBnd (rStr ".git-credentials"),                      -- /(^|\/|\\)\.git-credentials$/
  -- Package manager credentials
  pBnd (rStr ".npmrc"),                                -- /(^|\/|\\)\.npmrc$/
  pBnd (rCat [rStr ".yarnrc", rAll]),                  -- /(^|\/|\\)\.yarnrc/
  pBnd (rCat [rStr ".pip", rSepEnd]),                  -- /(^|\/|\\)\.pip(\/|\\|$)/
  pBnd (rStr ".pypirc"),                               -- /(^|\/|\\)\.pypirc$/
  pBnd (rStr ".gem/credentials"),                      -- /(^|\/|\\)\.gem\/credentials$/
  pBnd (rStr ".cargo/credentials"),                    -- /(^|\/|\\)\.cargo\/credentials$/
  -- Cloud provider credentials
  pBnd (rCat [rStr ".aws", rSepEnd]),                  -- /(^|\/|\\)\.aws(\/|\\|$)/
  pBnd (rCat [rStr ".azure", rSepEnd]),                -- /(^|\/|\\)\.azure(\/|\\|$)/
  pBnd (rCat [rStr ".gcloud", rSepEnd]),               -- /(^|\/|\\)\.gcloud(\/|\\|$)/
  pBnd (rCat [rStr ".config/gcloud", rAll]),           -- /(^|\/|\\)\.config\/gcloud/
  pBnd (rCat [rStr ".kube", rSepEnd]),                 -- /(^|\/|\\)\.kube(\/|\\|$)/
  pBnd (rStr ".docker/config.json"),                   -- /(^|\/|\\)\.docker\/config\.json$/
  ci (pEnd (rCat [rStr "service", rOpt rAny, rStr "account", rAll, rStr ".json"])),
                                                       -- /service.?account.*\.json$/i
  -- Browser data
  ci (pBnd (rStr "cookies")),                          -- /(^|\/|\\)Cookies$/i
  ci (pBnd (rStr "cookies.sqlite")),                   -- /(^|\/|\\)cookies\.sqlite$/i
  ci (pBnd (rStr "login data")),                       -- /(^|\/|\\)Login Data$/i
  ci (pBnd (rStr "web data")),                         -- /(^|\/|\\)Web Data$/i
  ci (pBnd (rStr "history")),                          -- /(^|\/|\\)History$/i
  pBnd (rCat [rStr ".mozilla", rSepEnd]),              -- /(^|\/|\\)\.mozilla(\/|\\|$)/
  pBnd (rCat [rStr ".chrome", rSepEnd]),               -- /(^|\/|\\)\.chrome(\/|\\|$)/
  -- System files
  pBnd (rStr "shadow"),                                -- /(^|\/|\\)shadow$/
  pBnd (rStr "passwd"),                                -- /(^|\/|\\)passwd$/
  pBnd (rCat [rStr "sudoers", rAll]),                  -- /(^|\/|\\)sudoers/
  -- Databases
  ci (pEnd (rStr ".sqlite")),                          -- /\.sqlite$/i
  ci (pEnd (rStr ".sqlite3")),                         -- /\.sqlite3$/i
  ci (pEnd (rStr ".db")),                              -- /\.db$/i
  -- Backup files
  ci (pEnd (rStr ".bak")),                             -- /\.bak$/i
  pEnd (rCh '~'),                                      -- /~$/
  -- Shell history
  pBnd (rStr ".bash_history"),                         -- /(^|\/|\\)\.bash_history$/
  pBnd (rStr ".zsh_history"),                          -- /(^|\/|\\)\.zsh_history$/
  pBnd (rStr ".node_repl_history"),                    -- /(^|\/|\\)\.node_repl_history$/
  pBnd (rStr ".python_history"),                       -- /(^|\/|\\)\.python_history$/
  -- Application-specific configs
  pBnd (rStr ".netrc"),                                -- /(^|\/|\\)\.netrc$/
  pBnd (rStr ".pgpass"),                               -- /(^|\/|\\)\.pgpass$/
  pBnd (rStr ".my.cnf"),                               -- /(^|\/|\\)\.my\.cnf$/
  pBnd (rStr ".mongocli.toml"),                        -- /(^|\/|\\)\.mongocli\.toml$/
  -- Node/JS internals
  pBnd (rCat [rStr "node_modules", rSepEnd]),          -- /(^|\/|\\)node_modules(\/|\\|$)/
  pBnd (rCat [rStr ".pnpm", rSepEnd]),                 -- /(^|\/|\\)\.pnpm(\/|\\|$)/
  pBnd (rCat [rStr ".yarn", rSepEnd]),                 -- /(^|\/|\\)\.yarn(\/|\\|$)/
  pBnd (rCat [rStr ".bun", rSepEnd]),                  -- /(^|\/|\\)\.bun(\/|\\|$)/
  -- Infrastructure & deployment
  ci (pEnd (rStr ".tfstate")),                         -- /\.tfstate$/i
  ci (pEnd (rStr ".tfvars")),                          -- /\.tfvars$/i
  pBnd (rCat [rStr ".terraform", rSepEnd]),            -- /(^|\/|\\)\.terraform(\/|\\|$)/
  pBnd (rStr "ansible.cfg"),                           -- /(^|\/|\\)ansible\.cfg$/
  ci (pEnd (rCat [rStr "vault", rAll, rStr ".y", rOpt (rCh 'a'), rStr "ml"]))
                                                       -- /vault.*\.ya?ml$/i
]

/-- `isBlocked` (security.secrets.ts): dangerous-path table first, then
the blocked-file table; we record only the boolean verdict. -/
def catalogIsBlocked (path : Str) : Bool :=
  isDangerousStr path || catalogFilePats.any (fun p => p path)

/-! ### Node `path` (posix) — the lexical path arithmetic used by the
filesystem capability: `isAbsolute`, `normalize`, `resolve`, `relative`,
`join`, `dirname`. -/

/-- `path.isAbsolute` (posix). -/
def jsIsAbsolute (s : Str) : Bool := s.head? == some '/'

/-- Split on `/`. -/
def splitSlash (s : Str) : List Str := splitP (fun c => c == '/') s

/-- Normalize a segment list: drop empty and `.` segments, resolve `..`
against the accumulated prefix; `allowAbove` keeps leading `..` segments
(relative paths) instead of discarding them (absolute paths). -/
def normSegs (allowAbove : Bool) : List Str → List Str → List Str
  | acc, [] => acc.reverse
  | acc, seg :: rest =>
    if seg == [] || seg == sOf "." then normSegs allowAbove acc rest
    else if seg == sOf ".." then
      match acc with
      | [] =>
        if allowAbove then normSegs allowAbove [seg] rest
        else normSegs allowAbove [] rest
      | top :: acc2 =>
        if top == sOf ".." then normSegs allowAbove (seg :: acc) rest
        else normSegs allowAbove acc2 rest
    else normSegs allowAbove (seg :: acc) rest

/-- `path.normalize` (posix), modulo trailing-slash preservation. -/
def jsNormalize (s : Str) : Str :=
  let abs := jsIsAbsolute s
  let segs := normSegs (!abs) [] (splitSlash s)
  if abs then '/' :: joinC '/' segs
  else if segs == [] then ['.']
  else joinC '/' segs

/-- `path.resolve(base, p)` for an absolute `base`. -/
def nodeResolve (base p : Str) : Str :=
  if jsIsAbsolute p then jsNormalize p else jsNormalize (base ++ '/' :: p)

/-- The non-empty segments of a (normalized) path. -/
def absSegs (s : Str) : List Str := (splitSlash s).filter (fun seg => !(seg == []))

/-- Length of the common prefix of two segment lists. -/
def cntCommon : List Str → List Str → Nat
  | a :: as, b :: bs => if a == b then cntCommon as bs + 1 else 0
  | _, _ => 0

/-- `path.relative(from, to)` (posix) on resolved absolute paths. -/
def nodeRelative (f t : Str) : Str :=
  let fs := absSegs f
  let ts := absSegs t
  let n := cntCommon fs ts
  joinC '/' (List.replicate (fs.length - n) (sOf "..") ++ ts.drop n)

/-- `path.join(a, b)` (posix). -/
def nodeJoin (a b : Str) : Str := jsNormalize (a ++ '/' :: b)

/-- `path.dirname` on a resolved (absolute, normalized) path. -/
def dirnameP (s : Str) : Str :=
  let segs := absSegs s
  if jsIsAbsolute s then '/' :: joinC '/' segs.dropLast
  else joinC '/' segs.dropLast

/-- JS `String.prototype.startsWith`. -/
def jsStartsWith (s p : Str) : Bool := p.isPrefixOf s

/-! ### The filesystem capability (`filesystem.ts`) -/

/-- `FilesystemCapabilityOptions` (hooks omitted; the additional
`blockPatterns` are carried in compiled form, i.e. as the predicates the
source's `new RegExp(...)` compilation produces). -/
structure FsOptions where
  root : Str
  allowPatterns : List Str := [sOf "**/*"]
  blockPats : List (Str → Bool) := []
  allowWrite : Bool := false
  allowDelete : Bool := false
  allowCreate : Bool := false
  maxReadSize : Nat := 10485760
  maxWriteSize : Nat := 1048576

/-- `const resolvedRoot = resolve(root)` (with a fixed `/` working
directory standing for the process cwd). -/
def resolvedRoot (o : FsOptions) : Str := nodeResolve (sOf "/") o.root

/-- `isBlockedPath` (filesystem.ts): always-blocked patterns against the
whole path, then the additional compiled patterns, then the
always-blocked patterns against each `[/\\]`-separated component. -/
def fsIsBlocked (o : FsOptions) (inputPath : Str) : Bool :=
  fsAlwaysBlockedPats.any (fun p => p inputPath) ||
  o.blockPats.any (fun p => p inputPath) ||
  (splitP (fun c => c == '/' || c == '\\') inputPath).any
    (fun part => fsAlwaysBlockedPats.any (fun p => p part))

/-- The resolved target of an input path: keep absolute inputs (after
`normalize`), resolve relative inputs against the root, and `normalize`
once more — exactly the steps of `resolveAndValidate`. -/
def targetOf (o : FsOptions) (input : Str) : Str :=
  jsNormalize (if jsIsAbsolute input then jsNormalize input
               else nodeResolve (resolvedRoot o) input)

/-- The offset of the resolved target from the root,
`relative(resolvedRoot, targetPath)`. -/
def relOffset (o : FsOptions) (input : Str) : Str :=
  nodeRelative (resolvedRoot o) (targetOf o input)

/-- `resolveAndValidate` (filesystem.ts): dangerous-path table, `~`
rejection, jail-escape guard on the recomputed offset, blocked patterns
against the offset and against the absolute resolved path.  Returns the
resolved path when valid. -/
def resolveAndValidate (o : FsOptions) (input : Str) : Option Str :=
  if isDangerousStr input then none
  else if jsStartsWith input (sOf "~") then none
  else if jsStartsWith (relOffset o input) (sOf "..") ||
          jsIsAbsolute (relOffset o input) then none
  else if fsIsBlocked o (relOffset o input) then none
  else if fsIsBlocked o (targetOf o input) then none
  else some (targetOf o input)

/-- `matchesGlob` (filesystem.ts): the glob-to-regex conversion of the
fallback branch, rendered by a direct scanner (`**` ↦ `.*`, `*` ↦
`[^/]*`, `?` ↦ `.`). -/
def globRx : Str → Rx
  | [] => .eps
  | '*' :: '*' :: r => .seq rAll (globRx r)
  | '*' :: r => .seq (.star rNS) (globRx r)
  | '?' :: r => .seq rAny (globRx r)
  | c :: r => .seq (rCh c) (globRx r)

/-- JS `String.prototype.includes`. -/
def jsIncludes (sub : Str) : Str → Bool
  | [] => sub.isPrefixOf []
  | c :: r => sub.isPrefixOf (c :: r) || jsIncludes sub r

/-- `matchesGlob` with its special cases for `**/*` and `**/`-prefixed
patterns. -/
def matchesGlob (path pat : Str) : Bool :=
  if pat == sOf "**/*" then true
  else if jsStartsWith pat (sOf "**/") then
    match pat.drop 3 with
    | '*' :: ext => ext.isSuffixOf path || jsIncludes ('/' :: ext) path
    | suffix => path == suffix || ('/' :: suffix).isSuffixOf path
  else rxFull (globRx pat) path

/-- `matchesAllowPatterns`. -/
def matchesAllowPat (o : FsOptions) (rel : Str) : Bool :=
  o.allowPatterns.any (fun pat => matchesGlob rel pat)

/-- `checkAccess` (filesystem.ts): full admission — jail + blocked +
allow patterns.  `some resolved` means allowed. -/
def checkAccess (o : FsOptions) (input : Str) : Option Str :=
  match resolveAndValidate o input with
  | none => none
  | some t =>
    if matchesAllowPat o (nodeRelative (resolvedRoot o) t) then some t else none

/-- An entry of the modelled filesystem: a regular file (with its size
and contents) or a directory (with its entry names). -/
inductive FEntry where
  | file (size : Nat) (content : Str) : FEntry
  | dir (entries : List Str) : FEntry
deriving DecidableEq

/-- Filesystem contents: an association of resolved paths to entries. -/
def FsState := List (Str × FEntry)

/-- Look up a resolved path. -/
def fsLookup (st : FsState) (k : Str) : Option FEntry :=
  match st.find? (fun kv => kv.1 == k) with
  | some kv => some kv.2
  | none => none

/-- Insert or replace an entry. -/
def fsInsert (st : FsState) (k : Str) (e : FEntry) : FsState :=
  (k, e) :: st.filter (fun kv => !(kv.1 == k))

/-- Remove an entry. -/
def fsRemove (st : FsState) (k : Str) : FsState :=
  st.filter (fun kv => !(kv.1 == k))

/-- The single opaque refusal message (`ACCESS_DENIED`). -/
def accessDenied : Str := sOf "Access denied"

/-- `read`: admission, existence, non-directory, size cap, contents. -/
def fsRead (o : FsOptions) (st : FsState) (p : Str) : Except Str Str :=
  match checkAccess o p with
  | none => .error accessDenied
  | some r =>
    match fsLookup st r with
    | none => .error accessDenied
    | some (.dir _) => .error accessDenied
    | some (.file sz content) =>
      if sz > o.maxReadSize then .error accessDenied else .ok content

/-- `write`: write flag, admission, create flag for new files, size cap,
parent-directory existence (created when allowed). -/
def fsWrite (o : FsOptions) (st : FsState) (p content : Str) : Except Str FsState :=
  if !o.allowWrite then .error accessDenied
  else match checkAccess o p with
  | none => .error accessDenied
  | some r =>
    if !(fsLookup st r).isSome && !o.allowCreate then .error accessDenied
    else if content.length > o.maxWriteSize then .error accessDenied
    else if (fsLookup st (dirnameP r)).isNone then
      if !o.allowCreate then .error accessDenied
      else .ok (fsInsert (fsInsert st (dirnameP r) (.dir [])) r
                  (.file content.length content))
    else .ok (fsInsert st r (.file content.length content))

/-- `exists`: refused access answers `false` instead of failing. -/
def fsExists (o : FsOptions) (st : FsState) (p : Str) : Bool :=
  match checkAccess o p with
  | none => false
  | some r => (fsLookup st r).isSome

/-- `list`: admission, existence, directory check, then the entries that
are not themselves blocked (blocked check against the root-relative path
of the joined entry). -/
def fsList (o : FsOptions) (st : FsState) (p : Str) : Except Str (List Str) :=
  match checkAccess o p with
  | none => .error accessDenied
  | some r =>
    match fsLookup st r with
    | none => .error accessDenied
    | some (.file _ _) => .error accessDenied
    | some (.dir entries) =>
      .ok (entries.filter (fun e =>
        !(fsIsBlocked o (nodeRelative (resolvedRoot o) (nodeJoin r e)))))

/-- The result record of `stat`. -/
structure StatM where
  size : Nat
  isDirectory : Bool
  isFile : Bool
deriving DecidableEq

/-- `stat`. -/
def fsStat (o : FsOptions) (st : FsState) (p : Str) : Except Str StatM :=
  match checkAccess o p with
  | none => .error accessDenied
  | some r =>
    match fsLookup st r with
    | none => .error accessDenied
    | some (.dir _) => .ok ⟨0, true, false⟩
    | some (.file sz _) => .ok ⟨sz, false, true⟩

/-- `delete`: delete flag, admission, existence, regular-file check. -/
def fsDelete (o : FsOptions) (st : FsState) (p : Str) : Except Str FsState :=
  if !o.allowDelete then .error accessDenied
  else match checkAccess o p with
  | none => .error accessDenied
  | some r =>
    match fsLookup st r with
    | none => .error accessDenied
    | some (.dir _) => .error accessDenied
    | some (.file _ _) => .ok (fsRemove st r)

/-- `mkdir`: write and create flags, admission. -/
def fsMkdir (o : FsOptions) (st : FsState) (p : Str) : Except Str FsState :=
  if !o.allowWrite || !o.allowCreate then .error accessDenied
  else match checkAccess o p with
  | none => .error accessDenied
  | some r => .ok (fsInsert st r (.dir []))

/-- `createWorkspaceCapability` (filesystem.ts): the options it passes to
`createFilesystemCapability` — note its `writableDirs` parameter. -/
def createWorkspaceCapability (root : Str) (_writableDirs : List Str) : FsOptions :=
  { root := root
    allowPatterns := [sOf "**/*"]
    allowWrite := true
    allowCreate := true }

/-- Beginning with a parent-directory segment: the offset is `..` itself
or starts with `../`. -/
def beginsParentSeg (s : Str) : Bool :=
  s == sOf ".." || jsStartsWith s (sOf "../")

/-- A concrete capability configuration used to instantiate theorems:
jail root `/ws`, default options. -/
def demoFsOptions : FsOptions := { root := sOf "/ws" }

/-- A concrete filesystem for the same instantiations. -/
def demoFsState : FsState := [
  (sOf "/ws", .dir [sOf "node_modules", sOf "a.txt"]),
  (sOf "/ws/node_modules", .dir [sOf "readme.txt"]),
  (sOf "/ws/node_modules/readme.txt", .file 2 (sOf "hi")),
  (sOf "/ws/a.txt", .file 1 (sOf "x")),
  (sOf "/ws/docs", .dir [sOf "readme.md"]),
  (sOf "/ws/docs/readme.md", .file 5 (sOf "hello"))
]

/-! ### SSRF address classification (`security.secrets.ts`) -/

/-- Decimal digits of a string after the optional sign: `parseInt`
takes the maximal digit run and fails (NaN) on an empty run. -/
def digitsVal10 (r : Str) : Option Nat :=
  let ds := r.takeWhile isDig
  if ds == [] then none
  else some (ds.foldl (fun acc c => acc * 10 + (c.toNat - 48)) 0)

/-- `Number.parseInt(s, 10)`; `none` models NaN. -/
def jsParseInt10 (s : Str) : Option Int :=
  match s.dropWhile jsWS with
  | '-' :: r => (digitsVal10 r).map (fun n => -(n : Int))
  | '+' :: r => (digitsVal10 r).map (fun n => (n : Int))
  | r => (digitsVal10 r).map (fun n => (n : Int))

/-- Hexadecimal digit value. -/
def hexVal (c : Char) : Option Nat :=
  if 48 ≤ c.toNat ∧ c.toNat ≤ 57 then some (c.toNat - 48)
  else if 97 ≤ c.toNat ∧ c.toNat ≤ 102 then some (c.toNat - 87)
  else if 65 ≤ c.toNat ∧ c.toNat ≤ 70 then some (c.toNat - 55)
  else none

/-- Hexadecimal digit test. -/
def isHexDig (c : Char) : Bool := (hexVal c).isSome

/-- Hex digits of a string; fails on an empty run. -/
def digitsVal16 (r : Str) : Option Nat :=
  let ds := r.takeWhile isHexDig
  if ds == [] then none
  else some (ds.foldl (fun acc c => acc * 16 + (hexVal c).getD 0) 0)

/-- `Number.parseInt(s, 16)` (with its `0x` prefix handling). -/
def jsParseInt16 (s : Str) : Option Int :=
  let core : Str → Option Nat := fun r =>
    match r with
    | '0' :: 'x' :: r2 => digitsVal16 r2
    | '0' :: 'X' :: r2 => digitsVal16 r2
    | _ => digitsVal16 r
  match s.dropWhile jsWS with
  | '-' :: r => (core r).map (fun n => -(n : Int))
  | '+' :: r => (core r).map (fun n => (n : Int))
  | r => (core r).map (fun n => (n : Int))

/-- The part-validation step of `parseIPv4`: four parts, each parsing
to 0–255. -/
def pipv4Core (parts : List Str) : Option (List Nat) :=
  if !(parts.length == 4) then none
  else if (parts.map jsParseInt10).any (fun v => match v with
      | none => true
      | some n => n < 0 || n > 255) then none
  else some ((parts.map jsParseInt10).map (fun v => (v.getD 0).toNat))

/-- `parseIPv4` (security.secrets.ts): split on `.`, require four parts
each parsing to 0–255. -/
def parseIPv4 (s : Str) : Option (List Nat) :=
  pipv4Core (splitP (fun c => c == '.') s)

/-- `isPrivateIPv4` (security.secrets.ts): the range tables, which read
only the first two octets. -/
def isPrivateIPv4 (octets : List Nat) : Bool :=
  match octets with
  | a :: b :: _ =>
    a == 0 || a == 10 || a == 127 ||
    (a == 169 && b == 254) ||
    (a == 172 && decide (16 ≤ b) && decide (b ≤ 31)) ||
    (a == 192 && b == 168) ||
    (a == 100 && decide (64 ≤ b) && decide (b ≤ 127))
  | _ => false

/-- JS `ToUint32`. -/
def toUint32 (x : Int) : Nat := (x % 4294967296).toNat

/-- JS `x << 16` (32-bit signed shift). -/
def shl16 (x : Int) : Int :=
  let v := (toUint32 x * 65536) % 4294967296
  if v ≥ 2147483648 then (v : Int) - 4294967296 else (v : Int)

/-- Strip one pair of square brackets (IPv6 literal syntax). -/
def stripBrackets (n0 : Str) : Str :=
  if (n0.head? == some '[') && (n0.getLast? == some ']')
  then (n0.drop 1).dropLast else n0

/-- The normalization prefix of `isPrivateIP`: trim, lowercase, strip
brackets. -/
def normIp (addr : Str) : Str := stripBrackets (lowStr (jsTrim addr))

/-- The hex-represented IPv4-mapped tail (`::ffff:c0a8:0101`): split on
`:`, drop empties, at most two parts, all parsing as hex; accumulate
with JS 32-bit shifts and read the four octets of the unsigned value. -/
def mappedHexOctets (mapped : Str) : Option (List Nat) :=
  let parts := (splitP (fun c => c == ':') mapped).filter (fun p => !(p == []))
  if parts.length ≤ 2 then
    let vals := parts.map jsParseInt16
    if vals.all Option.isSome then
      let value := vals.foldl (fun acc v => shl16 acc + v.getD 0) 0
      let u := toUint32 value
      some [(u / 16777216) % 256, (u / 65536) % 256, (u / 256) % 256, u % 256]
    else none
  else none

/-- The IPv6/IPv4 classification that the `::ffff:` branch falls through
to: loopback and private IPv6 prefixes when a colon is present, the
IPv4 range tables otherwise. -/
def ipv6OrV4 (n : Str) : Bool :=
  if jsIncludes (sOf ":") n then
    if n == sOf "::" || n == sOf "::1" then true
    else (sOf "fe80:").isPrefixOf n || (sOf "fec0:").isPrefixOf n ||
         (sOf "fc").isPrefixOf n || (sOf "fd").isPrefixOf n
  else
    match parseIPv4 n with
    | some o => isPrivateIPv4 o
    | none => false

/-- `isPrivateIP` (security.secrets.ts): normalize, handle the
IPv4-mapped `::ffff:` form (dotted quad, then hex), then the IPv6 and
bare-IPv4 classifications. -/
def isPrivateIP (addr : Str) : Bool :=
  if normIp addr == [] then false
  else if (sOf "::ffff:").isPrefixOf (normIp addr) then
    match parseIPv4 ((normIp addr).drop 7) with
    | some o => isPrivateIPv4 o
    | none =>
      match mappedHexOctets ((normIp addr).drop 7) with
      | some o => isPrivateIPv4 o
      | none => ipv6OrV4 (normIp addr)
  else ipv6OrV4 (normIp addr)

/-- Decimal rendering of a number (`String(n)` / `Nat.repr`). -/
def natStr (n : Nat) : Str := (Nat.repr n).data

/-- Canonical dotted-quad rendering of four octets. -/
def ipv4Str (a b c d : Nat) : Str :=
  natStr a ++ ('.' :: (natStr b ++ ('.' :: (natStr c ++ ('.' :: natStr d)))))

/-! ### The LLM capability (`llm.ts`) -/

/-- `\s+`. -/
def rWSp : Rx := rPlus rWS

/-- `instructions?` / `prompts?` style optional plural. -/
def rPl (s : String) : Rx := rCat [rStr s, rOpt (rCh 's')]

/-- `DEFAULT_BLOCKED_PATTERNS` (llm.ts), each annotated with its source
regex.  The `\b` boundaries of the `DAN` pattern are rendered through
word/non-word character classes. -/
def defaultBlockedPrompts : List (Str → Bool) := [
  -- /ignore\s+(previous|all|above)\s+(instructions?|prompts?)/i
  ci (pHas (rCat [rStr "ignore", rWSp,
    rOr (rStr "previous") (rOr (rStr "all") (rStr "above")), rWSp,
    rOr (rPl "instruction") (rPl "prompt")])),
  -- /disregard\s+(previous|all|above)\s+(instructions?|prompts?)/i
  ci (pHas (rCat [rStr "disregard", rWSp,
    rOr (rStr "previous") (rOr (rStr "all") (rStr "above")), rWSp,
    rOr (rPl "instruction") (rPl "prompt")])),
  -- /forget\s+(previous|all|above)\s+(instructions?|prompts?)/i
  ci (pHas (rCat [rStr "forget", rWSp,
    rOr (rStr "previous") (rOr (rStr "all") (rStr "above")), rWSp,
    rOr (rPl "instruction") (rPl "prompt")])),
  -- /you\s+are\s+now\s+(a|an|in)\s+(evil|unrestricted|jailbreak)/i
  ci (pHas (rCat [rStr "you", rWSp, rStr "are", rWSp, rStr "now", rWSp,
    rOr (rStr "a") (rOr (rStr "an") (rStr "in")), rWSp,
    rOr (rStr "evil") (rOr (rStr "unrestricted") (rStr "jailbreak"))])),
  -- /pretend\s+(you|to)\s+(are|be)\s+(a|an)/i
  ci (pHas (rCat [rStr "pretend", rWSp, rOr (rStr "you") (rStr "to"), rWSp,
    rOr (rStr "are") (rStr "be"), rWSp, rOr (rStr "a") (rStr "an")])),
  -- /act\s+as\s+(if|though)\s+you\s+(have|are)/i
  ci (pHas (rCat [rStr "act", rWSp, rStr "as", rWSp,
    rOr (rStr "if") (rStr "though"), rWSp, rStr "you", rWSp,
    rOr (rStr "have") (rStr "are")])),
  -- /\bDAN\b.*\bmode\b/i
  ci (fun s => rxFull (rCat [rOr .eps (rCat [rAll, rNW]), rStr "dan",
    rOr rNW (rCat [rNW, rAll, rNW]), rStr "mode",
    rOr .eps (rCat [rNW, rAll])]) s),
  -- /reveal\s+(your|the)\s+(system|initial)\s+prompt/i
  ci (pHas (rCat [rStr "reveal", rWSp, rOr (rStr "your") (rStr "the"), rWSp,
    rOr (rStr "system") (rStr "initial"), rWSp, rStr "prompt"])),
  -- /what\s+(is|are)\s+your\s+(system|initial)\s+(prompt|instructions?)/i
  ci (pHas (rCat [rStr "what", rWSp, rOr (rStr "is") (rStr "are"), rWSp,
    rStr "your", rWSp, rOr (rStr "system") (rStr "initial"), rWSp,
    rOr (rStr "prompt") (rPl "instruction")]))
]

/-- `LLMCapabilityOptions` (the filter functions carried directly;
`hasEmbed` records whether an `embed` function was supplied). -/
structure LlmCfg where
  maxTokensPerRequest : Nat := 4096
  maxTotalTokens : Nat := 100000
  maxRequests : Nat := 100
  blockedPromptPatterns : List (Str → Bool) := defaultBlockedPrompts
  requiredSystemPatterns : List (Str → Bool) := []
  promptFilter : Option (Str → Str) := none
  responseFilter : Option (Str → Str) := none
  hasEmbed : Bool := false

/-- The mutable session counters of a capability instance. -/
structure LlmState where
  totalTokensUsed : Nat := 0
  requestCount : Nat := 0
deriving DecidableEq

/-- `estimateTokens` (≈4 characters per token, rounded up). -/
def estimateTokens (t : Str) : Nat := (t.length + 3) / 4

/-- Apply an optional filter. -/
def applyFilter (f : Option (Str → Str)) (s : Str) : Str :=
  match f with
  | some g => g s
  | none => s

/-- `checkBudget` (llm.ts): request cap first, then token budget; the
error message when it refuses. -/
def checkBudgetErr (cfg : LlmCfg) (st : LlmState) (est : Nat) : Option Str :=
  if st.requestCount ≥ cfg.maxRequests then
    some (sOf "Request limit exceeded (" ++ natStr cfg.maxRequests ++
          sOf " requests per session)")
  else if st.totalTokensUsed + est > cfg.maxTotalTokens then
    some (sOf "Token budget exceeded. Used: " ++ natStr st.totalTokensUsed ++
          sOf ", Estimated: " ++ natStr est ++ sOf ", Budget: " ++
          natStr cfg.maxTotalTokens)
  else none

/-- `validatePrompt` (llm.ts): blocked patterns against the prompt (and
the system prompt when present), then the required-system patterns. -/
def validatePromptErr (cfg : LlmCfg) (prompt : Str) (system : Option Str) :
    Option Str :=
  match cfg.blockedPromptPatterns.findSome? (fun p =>
    if p prompt then some (sOf "Prompt contains blocked pattern")
    else match system with
      | some sys =>
        if p sys then some (sOf "System prompt contains blocked pattern") else none
      | none => none) with
  | some e => some e
  | none =>
    match system with
    | some sys =>
      if cfg.requiredSystemPatterns.length > 0 &&
         cfg.requiredSystemPatterns.any (fun p => !(p sys)) then
        some (sOf "System prompt missing required safety pattern")
      else none
    | none => none

/-- `options?.maxTokens || maxTokensPerRequest` — note the JS `||`
treats an explicit `0` as absent. -/
def effMaxResp (cfg : LlmCfg) (omt : Option Nat) : Nat :=
  match omt with
  | some n => if n == 0 then cfg.maxTokensPerRequest else n
  | none => cfg.maxTokensPerRequest

/-- The token estimate a `predict` call is admitted against:
prompt + system estimate + requested response maximum. -/
def predictEstimate (cfg : LlmCfg) (prompt : Str) (osys : Option Str)
    (omt : Option Nat) : Nat :=
  estimateTokens (applyFilter cfg.promptFilter prompt) +
  estimateTokens (osys.getD []) + effMaxResp cfg omt

/-- Outcome of one `predict` call: result, new session state, and
whether the underlying predict function was invoked (`admitted`). -/
structure PredictOut where
  result : Except Str Str
  state : LlmState
  admitted : Bool

/-- `predict` (llm.ts): filter, validate, per-request cap, budget check,
invoke the base function (a failed base call rolls the request count
back), filter the response, record actual tokens. -/
def predictM (cfg : LlmCfg) (st : LlmState) (prompt : Str) (osys : Option Str)
    (omt : Option Nat) (base : Except Str Str) : PredictOut :=
  match validatePromptErr cfg (applyFilter cfg.promptFilter prompt) osys with
  | some e => ⟨.error e, st, false⟩
  | none =>
    if effMaxResp cfg omt > cfg.maxTokensPerRequest then
      ⟨.error (sOf "maxTokens (" ++ natStr (effMaxResp cfg omt) ++
               sOf ") exceeds limit (" ++ natStr cfg.maxTokensPerRequest ++ sOf ")"),
       st, false⟩
    else match checkBudgetErr cfg st (predictEstimate cfg prompt osys omt) with
      | some e => ⟨.error e, st, false⟩
      | none =>
        match base with
        | .error e => ⟨.error e, st, true⟩
        | .ok resp0 =>
          ⟨.ok (applyFilter cfg.responseFilter resp0),
           ⟨st.totalTokensUsed +
              (estimateTokens (applyFilter cfg.promptFilter prompt) +
               estimateTokens (osys.getD []) +
               estimateTokens (applyFilter cfg.responseFilter resp0)),
            st.requestCount + 1⟩,
           true⟩

/-- Outcome of one `embed` call. -/
structure EmbedOut where
  result : Except Str (List Int)
  state : LlmState
  admitted : Bool

/-- `embed` (llm.ts): availability, budget check with one-unit-per-text
estimate, base call with rollback on failure. -/
def embedM (cfg : LlmCfg) (st : LlmState) (text : Str)
    (base : Except Str (List Int)) : EmbedOut :=
  if !cfg.hasEmbed then ⟨.error (sOf "Embedding capability not available"), st, false⟩
  else match checkBudgetErr cfg st (estimateTokens text) with
    | some e => ⟨.error e, st, false⟩
    | none =>
      match base with
      | .error e => ⟨.error e, st, true⟩
      | .ok v =>
        ⟨.ok v, ⟨st.totalTokensUsed + estimateTokens text, st.requestCount + 1⟩, true⟩

/-- One call of a session trace. -/
inductive LlmCall where
  | predictC (prompt : Str) (osys : Option Str) (omt : Option Nat)
      (base : Except Str Str) : LlmCall
  | embedC (text : Str) (base : Except Str (List Int)) : LlmCall

/-- The state after one call. -/
def llmStep (cfg : LlmCfg) (st : LlmState) : LlmCall → LlmState
  | .predictC p osys omt base => (predictM cfg st p osys omt base).state
  | .embedC t base => (embedM cfg st t base).state

/-- The state after a sequence of calls. -/
def llmRun (cfg : LlmCfg) (st : LlmState) : List LlmCall → LlmState
  | [] => st
  | c :: r => llmRun cfg (llmStep cfg st c) r

/-- A call whose successful base response respects the per-request
response cap it was admitted under. -/
def callBounded (cfg : LlmCfg) : LlmCall → Bool
  | .predictC _ _ omt (.ok resp) =>
    decide (estimateTokens (applyFilter cfg.responseFilter resp) ≤ effMaxResp cfg omt)
  | _ => true

/-- All of a trace's responses respect their caps. -/
def boundedResponses (cfg : LlmCfg) (calls : List LlmCall) : Bool :=
  calls.all (callBounded cfg)

/-- A session with a 100-token budget (counterexample configuration). -/
def cexLlmCfg : LlmCfg := { maxTotalTokens := 100 }

/-! ### The rate limiter (`rate-limiter.ts`)

State is per-requester (a map keyed by the lowercased requester id) plus
global; all counters are JS numbers, modelled as `Int` so that
non-negativity is a real statement.  Timestamps are `Int`
milliseconds. -/

/-- Per-requester state. -/
structure ReqState where
  requests : List Int := []
  concurrent : Int := 0
  cooldownUntil : Option Int := none
deriving DecidableEq

/-- `RateLimiterOptions`, flattened. -/
structure RLConfig where
  selfIds : List Str
  perMaxRequests : Nat := 10
  perWindowMs : Int := 60000
  perMaxConcurrent : Int := 2
  glMaxRequests : Nat := 100
  glWindowMs : Int := 60000
  glMaxConcurrent : Int := 10
  cooldownMs : Int := 30000

/-- The requester map (a JS `Map`), as an association list. -/
abbrev ReqMap := List (Str × ReqState)

/-- `Map.get`. -/
def rlLookup (m : ReqMap) (k : Str) : Option ReqState :=
  match m.find? (fun kv => kv.1 == k) with
  | some kv => some kv.2
  | none => none

/-- `Map.set`. -/
def rlSet (m : ReqMap) (k : Str) (v : ReqState) : ReqMap :=
  (k, v) :: m.filter (fun kv => !(kv.1 == k))

/-- The limiter's whole mutable state. -/
structure RLState where
  requesterState : ReqMap
  globalRequests : List Int
  globalConcurrent : Int
deriving DecidableEq

/-- The state at construction. -/
def rlInit : RLState := ⟨[], [], 0⟩

/-- Requester ids are normalized by lowercasing. -/
def normId (id : Str) : Str := lowStr id

/-- The self-id set (lowercased at construction). -/
def selfSet (cfg : RLConfig) : List Str := cfg.selfIds.map lowStr

/-- Requester state with the default for missing entries. -/
def getReq (s : RLState) (k : Str) : ReqState :=
  (rlLookup s.requesterState k).getD {}

/-- `getRequesterState`: insert the default entry when missing. -/
def ensureReq (s : RLState) (k : Str) : RLState :=
  match rlLookup s.requesterState k with
  | some _ => s
  | none => { s with requesterState := rlSet s.requesterState k {} }

/-- Store a requester state. -/
def setReqS (s : RLState) (k : Str) (v : ReqState) : RLState :=
  { s with requesterState := rlSet s.requesterState k v }

/-- Update a requester's window/cooldown, keeping its concurrent
counter. -/
def updDiag (s : RLState) (k : Str) (reqs : List Int) (cd : Option Int) : RLState :=
  setReqS s k ⟨reqs, (getReq s k).concurrent, cd⟩

/-- `pruneOldRequests`: drop leading timestamps strictly before
`now - windowMs`. -/
def prune (requests : List Int) (windowMs now : Int) : List Int :=
  requests.dropWhile (fun t => t < now - windowMs)

/-- The rejection reasons. -/
inductive Reject where
  | selfMessage : Reject
  | requesterCooldown : Reject
  | requesterConcurrent : Reject
  | requesterRateLimit : Reject
  | globalConcurrent : Reject
  | globalRateLimit : Reject
deriving DecidableEq

/-- The `check` result record. -/
structure CheckRes where
  allowed : Bool
  reason : Option Reject := none
  retryAfterMs : Option Int := none
deriving DecidableEq

/-- The retry hint computed from the oldest timestamp of a full
window. -/
def retryOf (requests : List Int) (windowMs now : Int) : Option Int :=
  match requests.head? with
  | some t => some (t + windowMs - now)
  | none => none

/-- Is the requester inside an active cooldown? -/
def cooldownActive (st : ReqState) (now : Int) : Bool :=
  match st.cooldownUntil with
  | some cu => now < cu
  | none => false

/-- `check`, step 6: global sliding window (after pruning). -/
def checkD (cfg : RLConfig) (s3 : RLState) (now : Int) : CheckRes × RLState :=
  if s3.globalRequests.length ≥ cfg.glMaxRequests then
    (⟨false, some .globalRateLimit, retryOf s3.globalRequests cfg.glWindowMs now⟩, s3)
  else (⟨true, none, none⟩, s3)

/-- `check`, steps 4–6: requester window (already pruned into `s2`),
cooldown activation, global concurrency, global window. -/
def checkC (cfg : RLConfig) (s2 : RLState) (k : Str) (now : Int) : CheckRes × RLState :=
  if (getReq s2 k).requests.length ≥ cfg.perMaxRequests then
    (⟨false, some .requesterRateLimit, retryOf (getReq s2 k).requests cfg.perWindowMs now⟩,
     updDiag s2 k (getReq s2 k).requests (some (now + cfg.cooldownMs)))
  else if s2.globalConcurrent ≥ cfg.glMaxConcurrent then
    (⟨false, some .globalConcurrent, none⟩, s2)
  else
    checkD cfg { s2 with globalRequests := prune s2.globalRequests cfg.glWindowMs now } now

/-- `check`, steps 2–4 on the ensured state. -/
def checkB (cfg : RLConfig) (s1 : RLState) (k : Str) (now : Int) : CheckRes × RLState :=
  if cooldownActive (getReq s1 k) now then
    (⟨false, some .requesterCooldown,
      some ((getReq s1 k).cooldownUntil.getD 0 - now)⟩, s1)
  else if (getReq s1 k).concurrent ≥ cfg.perMaxConcurrent then
    (⟨false, some .requesterConcurrent, none⟩, s1)
  else
    checkC cfg (updDiag s1 k (prune (getReq s1 k).requests cfg.perWindowMs now)
                  (getReq s1 k).cooldownUntil) k now

/-- `check` (rate-limiter.ts): self-id bar, then the six gates in
order; the returned state carries the pruning/cooldown mutations. -/
def check (cfg : RLConfig) (s : RLState) (id : Str) (now : Int) : CheckRes × RLState :=
  if (selfSet cfg).contains (normId id) then
    (⟨false, some .selfMessage, none⟩, s)
  else checkB cfg (ensureReq s (normId id)) (normId id) now

/-- The state part of `recordStart`: append the timestamp and increment
both concurrency counters. -/
def bump (s : RLState) (k : Str) (now : Int) : RLState :=
  { setReqS s k ⟨(getReq s k).requests ++ [now], (getReq s k).concurrent + 1,
                 (getReq s k).cooldownUntil⟩ with
    globalRequests := s.globalRequests ++ [now],
    globalConcurrent := s.globalConcurrent + 1 }

/-- `recordStart`. -/
def recordStart (s : RLState) (id : Str) (now : Int) : RLState :=
  bump (ensureReq s (normId id)) (normId id) now

/-- The per-requester decrement of `recordEnd` (guarded, no insertion
for missing entries). -/
def decReq (s : RLState) (k : Str) : RLState :=
  match rlLookup s.requesterState k with
  | some st =>
    if st.concurrent > 0 then setReqS s k { st with concurrent := st.concurrent - 1 }
    else s
  | none => s

/-- The global decrement of `recordEnd` (guarded). -/
def decGlobal (s : RLState) : RLState :=
  if s.globalConcurrent > 0 then { s with globalConcurrent := s.globalConcurrent - 1 }
  else s

/-- `recordEnd`. -/
def recordEnd (s : RLState) (id : Str) : RLState :=
  decGlobal (decReq s (normId id))

/-- One executor-driven event: `executeSkill` either runs `check` and —
when allowed — `recordStart` (an attempt), or completes an in-flight
admitted request, whose `finally` block runs `recordEnd` exactly once
(a finish). -/
inductive RLEvent where
  | attempt (id : Str) (tCheck tStart : Int) : RLEvent
  | finish (id : Str) : RLEvent

/-- Execute one event over (limiter state, multiset of in-flight
normalized requester ids); `none` when the event is not one the
executor could produce (finishing a request that is not in flight). -/
def rlExec (cfg : RLConfig) : RLState × List Str → RLEvent → Option (RLState × List Str)
  | (s, opens), .attempt id tC tS =>
    if (check cfg s id tC).1.allowed then
      some (recordStart (check cfg s id tC).2 id tS, normId id :: opens)
    else some ((check cfg s id tC).2, opens)
  | (s, opens), .finish id =>
    if opens.contains (normId id) then
      some (recordEnd s id, opens.erase (normId id))
    else none

/-- Run a list of events. -/
def rlRun (cfg : RLConfig) (c : RLState × List Str) : List RLEvent → Option (RLState × List Str)
  | [] => some c
  | e :: r =>
    match rlExec cfg c e with
    | some c2 => rlRun cfg c2 r
    | none => none

/-- A requester's concurrent counter (0 for missing entries). -/
def reqConc (s : RLState) (k : Str) : Int :=
  match rlLookup s.requesterState k with
  | some st => st.concurrent
  | none => 0

/-- The coupling invariant: the global counter equals the number of
in-flight requests, and each requester counter equals its own
in-flight count. -/
def RLInv (c : RLState × List Str) : Prop :=
  c.1.globalConcurrent = (c.2.length : Int) ∧
  ∀ k, reqConc c.1 k = (c.2.count k : Int)

/-- A concrete limiter configuration for instantiations. -/
def demoRLCfg : RLConfig := { selfIds := [sOf "bot-1"] }

/-! ### Trust levels (`trust-levels.ts`) -/

/-- The seven trust levels, in their order. -/
inductive TrustLevel where
  | none : TrustLevel
  | network : TrustLevel
  | read : TrustLevel
  | llm : TrustLevel
  | write : TrustLevel
  | shell : TrustLevel
  | full : TrustLevel
deriving DecidableEq

/-- Request provenance. -/
inductive SourceTag where
  | main : SourceTag
  | dm : SourceTag
  | group : SourceTag
  | public : SourceTag
deriving DecidableEq

/-- `getDefaultFuel`. -/
def getDefaultFuel : TrustLevel → Nat
  | .none => 100
  | .network => 500
  | .read => 500
  | .llm => 2000
  | .write => 1000
  | .shell => 2000
  | .full => 5000

/-- `getDefaultTimeout` (milliseconds). -/
def getDefaultTimeout : TrustLevel → Nat
  | .none => 5000
  | .network => 30000
  | .read => 15000
  | .llm => 120000
  | .write => 30000
  | .shell => 60000
  | .full => 300000

/-- A trust level's name as it appears in messages. -/
def levelName : TrustLevel → Str
  | .none => sOf "none"
  | .network => sOf "network"
  | .read => sOf "read"
  | .llm => sOf "llm"
  | .write => sOf "write"
  | .shell => sOf "shell"
  | .full => sOf "full"

/-- `inferTrustLevel`: map capability-name strings to the minimum level
that satisfies them. -/
def inferTrustLevel (used : List Str) : TrustLevel :=
  if (used.map lowStr).contains (sOf "shell") ||
     (used.map lowStr).contains (sOf "exec") ||
     (used.map lowStr).contains (sOf "spawn") then .shell
  else if (used.map lowStr).contains (sOf "write") ||
     (used.map lowStr).contains (sOf "writefile") ||
     (used.map lowStr).contains (sOf "mkdir") ||
     (used.map lowStr).contains (sOf "delete") then .write
  else if (used.map lowStr).contains (sOf "llm") ||
     (used.map lowStr).contains (sOf "predict") ||
     (used.map lowStr).contains (sOf "embed") ||
     (used.map lowStr).contains (sOf "ai") then .llm
  else if (used.map lowStr).contains (sOf "read") ||
     (used.map lowStr).contains (sOf "readfile") ||
     (used.map lowStr).contains (sOf "files") ||
     (used.map lowStr).contains (sOf "fs") then .read
  else if (used.map lowStr).contains (sOf "fetch") ||
     (used.map lowStr).contains (sOf "http") ||
     (used.map lowStr).contains (sOf "network") ||
     (used.map lowStr).contains (sOf "request") then .network
  else .none

/-- The result of `validateTrustForSource`. -/
structure TrustVal where
  allowed : Bool
  reason : Option Str := Option.none
deriving DecidableEq

/-- `validateTrustForSource` (trust-levels.ts): the ceiling per
provenance, with the exact refusal messages. -/
def validateTrustForSource (level : TrustLevel) (source : SourceTag) : TrustVal :=
  match source with
  | .main => ⟨true, Option.none⟩
  | .dm =>
    if level == .full || level == .shell then
      ⟨false, some (sOf "Trust level \"" ++ levelName level ++
        sOf "\" not allowed for DM sources. Max: \"write\"")⟩
    else ⟨true, Option.none⟩
  | .group =>
    if level == .full || level == .shell || level == .write then
      ⟨false, some (sOf "Trust level \"" ++ levelName level ++
        sOf "\" not allowed for group sources. Max: \"llm\"")⟩
    else ⟨true, Option.none⟩
  | .public =>
    if !(level == .none) && !(level == .network) then
      ⟨false, some (sOf "Trust level \"" ++ levelName level ++
        sOf "\" not allowed for public sources. Max: \"network\"")⟩
    else ⟨true, Option.none⟩

/-! ### Capability assembly (`getCapabilitiesForTrustLevel`)

Capability objects are closures in the source; here each factory call
is recorded as a descriptor carrying exactly the arguments the source
passes it.  The per-capability config overrides of `TrustLevelConfig`
(the `Partial<...> | false` fields that the source spreads into the
factory options) are carried as opaque payloads of type `α β γ δ`. -/

/-- A `Partial<X> | false | undefined` field. -/
inductive COv (α : Type) where
  | unset : COv α
  | off : COv α
  | over (a : α) : COv α

/-- Is the field the literal `false`? -/
def covOff {α : Type} : COv α → Bool
  | .off => true
  | _ => false

/-- The override payload to spread, if any. -/
def covPayload {α : Type} : COv α → Option α
  | .over a => some a
  | _ => Option.none

/-- `TrustLevelConfig`. -/
structure TrustLevelConfigM (α β γ δ : Type) where
  level : TrustLevel
  fetch : COv α := .unset
  filesystem : COv β := .unset
  llm : COv γ := .unset
  shell : COv δ := .unset
  fuel : Option Nat := Option.none
  timeoutMs : Option Nat := Option.none

/-- `TrustContext` (function-typed fields reduced to presence flags;
shell command entries identified by binary name). -/
structure TrustContextM where
  workdir : Str
  allowedHosts : Option (List Str) := Option.none
  llmPredict : Bool := false
  llmEmbed : Bool := false
  writableDirs : Option (List Str) := Option.none
  additionalCommands : List Str := []

/-- Arguments passed to `createFetchCapability`. -/
structure FetchDesc (α : Type) where
  allowedHosts : List Str
  cfgOver : Option α

/-- Arguments passed to `createFilesystemCapability`. -/
structure FsDesc (β : Type) where
  root : Str
  allowWrite : Bool
  allowCreate : Bool
  allowDelete : Bool
  cfgOver : Option β

/-- Arguments passed to `createLLMCapability`. -/
structure LlmDesc (γ : Type) where
  hasEmbed : Bool
  maxTotalTokens : Option Nat
  cfgOver : Option γ

/-- Arguments passed to `createShellCapability`. -/
structure ShellDesc (δ : Type) where
  workdir : Str
  allowlist : List Str
  cfgOver : Option δ

/-- The assembled capability table. -/
structure CapTableM (α β γ δ : Type) where
  fetch : Option (FetchDesc α) := Option.none
  files : Option (FsDesc β) := Option.none
  llm : Option (LlmDesc γ) := Option.none
  shell : Option (ShellDesc δ) := Option.none

/-- Result of `getCapabilitiesForTrustLevel`. -/
structure CapsResult (α β γ δ : Type) where
  capabilities : CapTableM α β γ δ
  fuel : Nat
  timeoutMs : Nat

/-- `SAFE_READ_COMMANDS` / `READ_ONLY_SHELL` (shell.ts), by binary. -/
def READ_ONLY_SHELL : List Str :=
  [sOf "ls", sOf "cat", sOf "head", sOf "tail", sOf "wc", sOf "file", sOf "stat"]

/-- `SAFE_GIT_COMMANDS` / `GIT_READ_ONLY` (shell.ts), by binary. -/
def GIT_READ_ONLY : List Str := [sOf "git"]

/-- The fetch capability guarded by `context.allowedHosts?.length`
(the read/llm/write/shell branches). -/
def fetchIfHosts {α β γ δ : Type} (config : TrustLevelConfigM α β γ δ)
    (context : TrustContextM) : Option (FetchDesc α) :=
  if covOff config.fetch then Option.none
  else match context.allowedHosts with
    | some hosts =>
      if hosts.length > 0 then some ⟨hosts, covPayload config.fetch⟩ else Option.none
    | Option.none => Option.none

/-- The LLM capability guarded by `context.llmPredict`. -/
def llmIf {α β γ δ : Type} (config : TrustLevelConfigM α β γ δ)
    (context : TrustContextM) (maxTT : Option Nat) : Option (LlmDesc γ) :=
  if covOff config.llm then Option.none
  else if context.llmPredict then
    some ⟨context.llmEmbed, maxTT, covPayload config.llm⟩
  else Option.none

/-- The capability table per level (the `switch` of
`getCapabilitiesForTrustLevel`). -/
def capsFor {α β γ δ : Type} (config : TrustLevelConfigM α β γ δ)
    (context : TrustContextM) : CapTableM α β γ δ :=
  match config.level with
  | .none => {}
  | .network =>
    { fetch :=
        if covOff config.fetch then Option.none
        else some ⟨context.allowedHosts.getD [], covPayload config.fetch⟩ }
  | .read =>
    { fetch := fetchIfHosts config context
      files :=
        if covOff config.filesystem then Option.none
        else some ⟨context.workdir, false, false, false, covPayload config.filesystem⟩ }
  | .llm =>
    { fetch := fetchIfHosts config context
      files :=
        if covOff config.filesystem then Option.none
        else some ⟨context.workdir, false, false, false, covPayload config.filesystem⟩
      llm := llmIf config context Option.none }
  | .write =>
    { fetch := fetchIfHosts config context
      files :=
        if covOff config.filesystem then Option.none
        else some ⟨context.workdir, true, true, false, covPayload config.filesystem⟩
      llm := llmIf config context Option.none }
  | .shell =>
    { fetch := fetchIfHosts config context
      files :=
        if covOff config.filesystem then Option.none
        else some ⟨context.workdir, true, true, false, covPayload config.filesystem⟩
      llm := llmIf config context Option.none
      shell :=
        if covOff config.shell then Option.none
        else some ⟨context.workdir,
          READ_ONLY_SHELL ++ GIT_READ_ONLY ++ context.additionalCommands,
          covPayload config.shell⟩ }
  | .full =>
    { fetch :=
        if covOff config.fetch then Option.none
        else some ⟨context.allowedHosts.getD [sOf "*"], covPayload config.fetch⟩
      files :=
        if covOff config.filesystem then Option.none
        else some ⟨context.workdir, true, true, true, covPayload config.filesystem⟩
      llm := llmIf config context (some 1000000)
      shell :=
        if covOff config.shell then Option.none
        else some ⟨context.workdir,
          READ_ONLY_SHELL ++ GIT_READ_ONLY ++
            [sOf "npm", sOf "bun", sOf "node"] ++ context.additionalCommands,
          covPayload config.shell⟩ }

/-- `getCapabilitiesForTrustLevel`. -/
def getCapsM {α β γ δ : Type} (config : TrustLevelConfigM α β γ δ)
    (context : TrustContextM) : CapsResult α β γ δ :=
  { capabilities := capsFor config context
    fuel := config.fuel.getD (getDefaultFuel config.level)
    timeoutMs := config.timeoutMs.getD (getDefaultTimeout config.level) }

/-! ### The skill loader's validation (`skill-loader.ts`) -/

/-- `/eval\s*\(/`. -/
def pEval : Str → Bool := pHas (rCat [rStr "eval", .star rWS, rCh '('])

/-- `/Function\s*\(/`. -/
def pFunctionCtor : Str → Bool := pHas (rCat [rStr "Function", .star rWS, rCh '('])

/-- `/require\s*\(/`. -/
def pRequire : Str → Bool := pHas (rCat [rStr "require", .star rWS, rCh '('])

/-- `/__proto__/`. -/
def pProto : Str → Bool := jsIncludes (sOf "__proto__")

/-- `/\.constructor/`. -/
def pCtorAccess : Str → Bool := jsIncludes (sOf ".constructor")

/-- `/\.prototype/`. -/
def pProtoAccess : Str → Bool := jsIncludes (sOf ".prototype")

/-- A loaded skill: manifest name, source text, the root opcode of the
compiled AST, and the declared-or-inferred trust level. -/
structure LoadedSkillM where
  name : Str
  source : Str
  astRootOp : Str
  trustLevel : TrustLevel

/-- `validateSkill`'s error list: the six dangerous-pattern messages, in
order, then the AST-structure check. -/
def validateSkillErrors (sk : LoadedSkillM) : List Str :=
  (if pEval sk.source then [sOf "eval() is not allowed"] else []) ++
  (if pFunctionCtor sk.source then [sOf "Function constructor is not allowed"] else []) ++
  (if pRequire sk.source then [sOf "require() is not allowed in AJS"] else []) ++
  (if pProto sk.source then [sOf "__proto__ access is forbidden"] else []) ++
  (if pCtorAccess sk.source then [sOf ".constructor access is forbidden"] else []) ++
  (if pProtoAccess sk.source then [sOf ".prototype access is forbidden"] else []) ++
  (if !(sk.astRootOp == sOf "seq") then
    [sOf "Invalid AST structure: root must be a sequence"] else [])

/-- `validateSkill`: `(valid, errors)`. -/
def validateSkillM (sk : LoadedSkillM) : Bool × List Str :=
  ((validateSkillErrors sk).length == 0, validateSkillErrors sk)

/-! ### The executor (`safe-executor.ts`)

`SafeExecutorOptions` fields are tri-state (absent / explicitly
`undefined` / a value) because the constructor merges them over the
defaults with an object spread; `Option (Option Nat)` renders that.
`_executeSkillInternal` is modelled from validation to the `vm.run`
call; the VM outcome (including a thrown exception) is an oracle
argument, and the call's fuel/timeout arguments are part of the
output. -/

/-- User-supplied executor options. -/
structure ExecOptsM where
  defaultFuel : Option (Option Nat) := Option.none
  defaultTimeoutMs : Option (Option Nat) := Option.none
  skillTrustOverrides : Str → Option TrustLevel := fun _ => Option.none

/-- `this.options.defaultFuel` after the constructor's
`{ defaultFuel: 1000, ...options }` merge. -/
def mergedFuel (o : ExecOptsM) : Option Nat :=
  match o.defaultFuel with
  | Option.none => some 1000
  | some x => x

/-- `this.options.defaultTimeoutMs` after the merge. -/
def mergedTimeout (o : ExecOptsM) : Option Nat :=
  match o.defaultTimeoutMs with
  | Option.none => some 30000
  | some x => x

/-- The `ExecutionContext` fields the internal execution reads. -/
structure ExecCtxM where
  source : SourceTag
  workdir : Str
  allowedHosts : Option (List Str) := Option.none
  llmPredict : Bool := false
  llmEmbed : Bool := false
  writableDirs : Option (List Str) := Option.none
  additionalCommands : List Str := []

/-- The `TrustContext` built by `_executeSkillInternal`. -/
def trustCtxOf (c : ExecCtxM) : TrustContextM :=
  ⟨c.workdir, c.allowedHosts, c.llmPredict, c.llmEmbed, c.writableDirs,
   c.additionalCommands⟩

/-- A VM `RunResult`. -/
structure RunResultM where
  error : Option Str
  fuelUsed : Nat
deriving DecidableEq

/-- The `ExecutionResult` fields the claims are about. -/
structure ExecResultM where
  success : Bool
  error : Option Str
  fuelUsed : Nat
deriving DecidableEq

/-- The observable outcome of `_executeSkillInternal`: the result,
whether `vm.run` was invoked, and the fuel/timeout passed to it. -/
structure ExecOutM where
  res : ExecResultM
  invoked : Bool
  vmFuel : Option Nat
  vmTimeoutMs : Option Nat
deriving DecidableEq

/-- Join with `", "` (the validation-error message). -/
def joinCommaSp : List Str → Str
  | [] => []
  | [x] => x
  | x :: r => x ++ sOf ", " ++ joinCommaSp r

/-- The effective trust level
(`skillTrustOverrides?.[name] || skill.trustLevel`). -/
def effLevel (opts : ExecOptsM) (sk : LoadedSkillM) : TrustLevel :=
  match opts.skillTrustOverrides sk.name with
  | some l => l
  | Option.none => sk.trustLevel

/-- `_executeSkillInternal` (safe-executor.ts): skill validation, trust
ceiling, capability assembly, then `vm.run` with
`this.options.defaultFuel ?? fuel` / `this.options.defaultTimeoutMs ??
timeoutMs`.  The VM outcome oracle covers both the thrown and returned
cases. -/
def executeSkillInternalM (opts : ExecOptsM) (sk : LoadedSkillM) (ctx : ExecCtxM)
    (vmOut : Except Str RunResultM) : ExecOutM :=
  if !(validateSkillM sk).1 then
    ⟨⟨false, some (sOf "Skill validation failed: " ++ joinCommaSp (validateSkillM sk).2), 0⟩,
     false, Option.none, Option.none⟩
  else if !(validateTrustForSource (effLevel opts sk) ctx.source).allowed then
    ⟨⟨false, (validateTrustForSource (effLevel opts sk) ctx.source).reason, 0⟩,
     false, Option.none, Option.none⟩
  else
    match vmOut with
    | .error e =>
      ⟨⟨false, some e, 0⟩, true,
       some ((mergedFuel opts).getD
         ((getCapsM ({ level := effLevel opts sk } : TrustLevelConfigM Unit Unit Unit Unit)
           (trustCtxOf ctx)).fuel)),
       some ((mergedTimeout opts).getD
         ((getCapsM ({ level := effLevel opts sk } : TrustLevelConfigM Unit Unit Unit Unit)
           (trustCtxOf ctx)).timeoutMs))⟩
    | .ok r =>
      ⟨⟨r.error.isNone, r.error, r.fuelUsed⟩, true,
       some ((mergedFuel opts).getD
         ((getCapsM ({ level := effLevel opts sk } : TrustLevelConfigM Unit Unit Unit Unit)
           (trustCtxOf ctx)).fuel)),
       some ((mergedTimeout opts).getD
         ((getCapsM ({ level := effLevel opts sk } : TrustLevelConfigM Unit Unit Unit Unit)
           (trustCtxOf ctx)).timeoutMs))⟩

/-- A concretely valid skill declared at `full` trust. -/
def demoSkillFull : LoadedSkillM := ⟨sOf "demo", sOf "x = 1", sOf "seq", .full⟩

/-- A concretely valid skill declared at `shell` trust. -/
def demoSkillShell : LoadedSkillM := ⟨sOf "demo2", sOf "y = 2", sOf "seq", .shell⟩

/-- A skill whose source is an `import` statement. -/
def importSkill : LoadedSkillM :=
  ⟨sOf "imp", sOf "import fs from \"fs\"", sOf "seq", .none⟩

/-- A default-constructed executor's options (`new SafeExecutor()` /
`new SafeExecutor({})`). -/
def defaultExecOpts : ExecOptsM := {}

/-- A main-session execution context. -/
def demoExecCtx : ExecCtxM := { source := .main, workdir := sOf "/ws" }

/-- A public-provenance execution context. -/
def publicExecCtx : ExecCtxM := { source := .public, workdir := sOf "/ws" }

/-! ### Lemmas about the admission check -/

theorem startsWith_dd_of_dds {s : Str}
    (h : jsStartsWith s (sOf "../") = true) : jsStartsWith s (sOf "..") = true := by
  unfold jsStartsWith sOf at h ⊢
  match s with
  | [] => simp [List.isPrefixOf] at h
  | [a] => simp [List.isPrefixOf] at h
  | a :: b :: t =>
    simp [List.isPrefixOf] at h ⊢
    exact ⟨h.1, h.2.1⟩

theorem beginsParentSeg_false {s : Str}
    (h : jsStartsWith s (sOf "..") = false) : beginsParentSeg s = false := by
  unfold beginsParentSeg
  cases he : s == sOf ".." with
  | true =>
    exfalso
    have hs : s = sOf ".." := by exact eq_of_beq he
    rw [hs] at h
    exact absurd h (by decide)
  | false =>
    cases hp : jsStartsWith s (sOf "../") with
    | true => exact absurd h (by rw [startsWith_dd_of_dds hp]; decide)
    | false => rfl

theorem resolveAndValidate_some {o : FsOptions} {p t : Str}
    (h : resolveAndValidate o p = some t) :
    t = targetOf o p ∧
    jsStartsWith (relOffset o p) (sOf "..") = false ∧
    jsIsAbsolute (relOffset o p) = false ∧
    fsIsBlocked o (relOffset o p) = false := by
  unfold resolveAndValidate at h
  split at h
  · exact absurd h (by simp)
  split at h
  · exact absurd h (by simp)
  split at h
  · exact absurd h (by simp)
  split at h
  · exact absurd h (by simp)
  split at h
  · exact absurd h (by simp)
  next hguard hblock _ =>
    have ht : t = targetOf o p := (Option.some_inj.mp h).symm
    have hg : (jsStartsWith (relOffset o p) (sOf "..") ||
               jsIsAbsolute (relOffset o p)) = false := by
      exact Bool.not_eq_true _ ▸ (by simpa using hguard)
    have h1 : jsStartsWith (relOffset o p) (sOf "..") = false :=
      (Bool.or_eq_false_iff.mp hg).1
    have h2 : jsIsAbsolute (relOffset o p) = false :=
      (Bool.or_eq_false_iff.mp hg).2
    have h3 : fsIsBlocked o (relOffset o p) = false := by
      simpa using hblock
    exact ⟨ht, h1, h2, h3⟩

theorem checkAccess_some {o : FsOptions} {p t : Str}
    (h : checkAccess o p = some t) :
    t = targetOf o p ∧
    jsStartsWith (relOffset o p) (sOf "..") = false ∧
    jsIsAbsolute (relOffset o p) = false ∧
    fsIsBlocked o (relOffset o p) = false := by
  unfold checkAccess at h
  cases hra : resolveAndValidate o p with
  | none => rw [hra] at h; exact absurd h (by simp)
  | some u =>
    rw [hra] at h
    have hres := resolveAndValidate_some hra
    have h2 : (if matchesAllowPat o (nodeRelative (resolvedRoot o) u) = true
               then some u else none) = some t := h
    split at h2
    · exact (Option.some_inj.mp h2) ▸ hres
    · exact absurd h2 (by simp)

theorem checkAccess_none_of_blocked {o : FsOptions} {p : Str}
    (hb : fsIsBlocked o (relOffset o p) = true) :
    checkAccess o p = none := by
  cases hc : checkAccess o p with
  | none => rfl
  | some t =>
    have := (checkAccess_some hc).2.2.2
    rw [this] at hb
    exact absurd hb (by decide)

theorem fsRead_err_of_blocked {o : FsOptions} {st : FsState} {p : Str}
    (hb : fsIsBlocked o (relOffset o p) = true) :
    fsRead o st p = .error accessDenied := by
  unfold fsRead; rw [checkAccess_none_of_blocked hb]

theorem fsWrite_err_of_blocked {o : FsOptions} {st : FsState} {p c : Str}
    (hb : fsIsBlocked o (relOffset o p) = true) :
    fsWrite o st p c = .error accessDenied := by
  unfold fsWrite; rw [checkAccess_none_of_blocked hb]; split <;> rfl

theorem fsList_err_of_blocked {o : FsOptions} {st : FsState} {p : Str}
    (hb : fsIsBlocked o (relOffset o p) = true) :
    fsList o st p = .error accessDenied := by
  unfold fsList; rw [checkAccess_none_of_blocked hb]

theorem fsStat_err_of_blocked {o : FsOptions} {st : FsState} {p : Str}
    (hb : fsIsBlocked o (relOffset o p) = true) :
    fsStat o st p = .error accessDenied := by
  unfold fsStat; rw [checkAccess_none_of_blocked hb]

theorem fsDelete_err_of_blocked {o : FsOptions} {st : FsState} {p : Str}
    (hb : fsIsBlocked o (relOffset o p) = true) :
    fsDelete o st p = .error accessDenied := by
  unfold fsDelete; rw [checkAccess_none_of_blocked hb]; split <;> rfl

theorem fsMkdir_err_of_blocked {o : FsOptions} {st : FsState} {p : Str}
    (hb : fsIsBlocked o (relOffset o p) = true) :
    fsMkdir o st p = .error accessDenied := by
  unfold fsMkdir; rw [checkAccess_none_of_blocked hb]; split <;> rfl

theorem fsList_ok_entries {o : FsOptions} {st : FsState} {d : Str} {l : List Str}
    (h : fsList o st d = .ok l) :
    ∀ e ∈ l, ∃ r, checkAccess o d = some r ∧
      fsIsBlocked o (nodeRelative (resolvedRoot o) (nodeJoin r e)) = false := by
  intro e he
  unfold fsList at h
  cases hc : checkAccess o d with
  | none => rw [hc] at h; exact absurd h (by simp)
  | some r =>
    rw [hc] at h
    dsimp only at h
    refine ⟨r, rfl, ?_⟩
    cases hl : fsLookup st r with
    | none => rw [hl] at h; exact absurd h (by simp)
    | some ent =>
      rw [hl] at h
      cases ent with
      | file sz content => exact absurd h (by simp)
      | dir entries =>
        have hl2 : entries.filter (fun e =>
            !(fsIsBlocked o (nodeRelative (resolvedRoot o) (nodeJoin r e)))) = l := by
          exact Except.ok.inj h
        rw [← hl2] at he
        have := (List.mem_filter.mp he).2
        simpa using this

/-- C1: for every filesystem capability built over a jail root, every
input path that the admission check (shared by read, write, exists,
list, stat, delete and mkdir) accepts resolves inside the jail — the
offset of the resolved path from the resolved root neither begins with
a parent-directory segment nor is an absolute path. -/
theorem C1_no_jail_escape (o : FsOptions) (p t : Str)
    (h : checkAccess o p = some t) :
    beginsParentSeg (nodeRelative (resolvedRoot o) t) = false ∧
    jsIsAbsolute (nodeRelative (resolvedRoot o) t) = false := by
  obtain ⟨ht, h1, h2, _⟩ := checkAccess_some h
  subst ht
  exact ⟨beginsParentSeg_false h1, h2⟩

/-- C1 witness: the check concretely accepts `docs/readme.md` under the
root `/ws`, and the accepted offset is jail-safe. -/
theorem C1_no_jail_escape_witness :
    checkAccess demoFsOptions (sOf "docs/readme.md") = some (sOf "/ws/docs/readme.md") ∧
    beginsParentSeg (nodeRelative (resolvedRoot demoFsOptions) (sOf "/ws/docs/readme.md")) = false ∧
    jsIsAbsolute (nodeRelative (resolvedRoot demoFsOptions) (sOf "/ws/docs/readme.md")) = false :=
  ⟨by decide,
   (C1_no_jail_escape demoFsOptions (sOf "docs/readme.md") _ (by decide)).1,
   (C1_no_jail_escape demoFsOptions (sOf "docs/readme.md") _ (by decide)).2⟩

/-- C2 counterexample: the security catalog's `isBlocked` reports
`node_modules/readme.txt` as blocked (its `node_modules` entry), yet the
filesystem capability — which consults its own, different pattern list —
reads that path successfully; likewise `list` of the jail root returns
the entry `node_modules` although `isBlocked` on the joined path is
true. -/
theorem C2_catalog_fs_mismatch :
    catalogIsBlocked (sOf "node_modules/readme.txt") = true ∧
    fsRead demoFsOptions demoFsState (sOf "node_modules/readme.txt") = .ok (sOf "hi") ∧
    fsList demoFsOptions demoFsState (sOf "") = .ok [sOf "node_modules", sOf "a.txt"] ∧
    catalogIsBlocked (nodeJoin (sOf "/ws") (sOf "node_modules")) = true :=
  ⟨by decide, rfl, rfl, by decide⟩

/-- C2 (amended): with the filesystem capability's own blocked-pattern
check in place of the catalog's, applied to the jail-relative resolved
offset (which is what the code tests): a blocked offset makes every
method (read, write, list, stat, delete, mkdir) fail, and every entry
returned by `list` has an unblocked root-relative joined path. -/
theorem C2_blocked_paths_never_served :
    (∀ (o : FsOptions) (st : FsState) (p : Str),
      fsIsBlocked o (relOffset o p) = true →
        fsRead o st p = .error accessDenied ∧
        (∀ c, fsWrite o st p c = .error accessDenied) ∧
        fsList o st p = .error accessDenied ∧
        fsStat o st p = .error accessDenied ∧
        fsDelete o st p = .error accessDenied ∧
        fsMkdir o st p = .error accessDenied) ∧
    (∀ (o : FsOptions) (st : FsState) (d : Str) (l : List Str),
      fsList o st d = .ok l → ∀ e ∈ l, ∃ r, checkAccess o d = some r ∧
        fsIsBlocked o (nodeRelative (resolvedRoot o) (nodeJoin r e)) = false) :=
  ⟨fun _ _ _ hb =>
    ⟨fsRead_err_of_blocked hb, fun _ => fsWrite_err_of_blocked hb,
     fsList_err_of_blocked hb, fsStat_err_of_blocked hb,
     fsDelete_err_of_blocked hb, fsMkdir_err_of_blocked hb⟩,
   fun _ _ _ _ h => fsList_ok_entries h⟩

/-- C2 witness: concrete instantiation of both halves of the amended
statement (`.env` is blocked and every method refuses it; the listing of
the jail root yields only entries whose joined paths are unblocked). -/
theorem C2_blocked_paths_never_served_witness :
    fsRead demoFsOptions demoFsState (sOf ".env") = .error accessDenied ∧
    fsStat demoFsOptions demoFsState (sOf ".env") = .error accessDenied ∧
    (∃ r, checkAccess demoFsOptions (sOf "") = some r ∧
      fsIsBlocked demoFsOptions
        (nodeRelative (resolvedRoot demoFsOptions) (nodeJoin r (sOf "a.txt"))) = false) :=
  ⟨(C2_blocked_paths_never_served.1 demoFsOptions demoFsState (sOf ".env") (by decide)).1,
   (C2_blocked_paths_never_served.1 demoFsOptions demoFsState (sOf ".env") (by decide)).2.2.2.1,
   C2_blocked_paths_never_served.2 demoFsOptions demoFsState (sOf "")
     [sOf "node_modules", sOf "a.txt"] rfl (sOf "a.txt") (by decide)⟩

/-- C8: every refusal of a filesystem method carries exactly the opaque
message `Access denied`, and `exists` never refuses — a path whose
access is refused answers `false`. -/
theorem C8_opaque_refusals :
    (∀ (o : FsOptions) (st : FsState) (p e : Str),
        fsRead o st p = .error e → e = accessDenied) ∧
    (∀ (o : FsOptions) (st : FsState) (p c e : Str),
        fsWrite o st p c = .error e → e = accessDenied) ∧
    (∀ (o : FsOptions) (st : FsState) (p e : Str),
        fsList o st p = .error e → e = accessDenied) ∧
    (∀ (o : FsOptions) (st : FsState) (p e : Str),
        fsStat o st p = .error e → e = accessDenied) ∧
    (∀ (o : FsOptions) (st : FsState) (p e : Str),
        fsDelete o st p = .error e → e = accessDenied) ∧
    (∀ (o : FsOptions) (st : FsState) (p e : Str),
        fsMkdir o st p = .error e → e = accessDenied) ∧
    (∀ (o : FsOptions) (st : FsState) (p : Str),
        checkAccess o p = none → fsExists o st p = false) := by
  refine ⟨?_, ?_, ?_, ?_, ?_, ?_, ?_⟩
  · intro o st p e h
    unfold fsRead at h
    repeat' split at h
    all_goals first
      | exact (Except.error.inj h).symm
      | exact absurd h (by simp)
  · intro o st p c e h
    unfold fsWrite at h
    repeat' split at h
    all_goals first
      | exact (Except.error.inj h).symm
      | exact absurd h (by simp)
  · intro o st p e h
    unfold fsList at h
    repeat' split at h
    all_goals first
      | exact (Except.error.inj h).symm
      | exact absurd h (by simp)
  · intro o st p e h
    unfold fsStat at h
    repeat' split at h
    all_goals first
      | exact (Except.error.inj h).symm
      | exact absurd h (by simp)
  · intro o st p e h
    unfold fsDelete at h
    repeat' split at h
    all_goals first
      | exact (Except.error.inj h).symm
      | exact absurd h (by simp)
  · intro o st p e h
    unfold fsMkdir at h
    repeat' split at h
    all_goals first
      | exact (Except.error.inj h).symm
      | exact absurd h (by simp)
  · intro o st p hc
    unfold fsExists
    rw [hc]

/-- C8 witness: concrete refused operations surface `Access denied`, and
`exists` on a refused path is `false`. -/
theorem C8_opaque_refusals_witness :
    (sOf "Access denied") = accessDenied ∧
    fsExists demoFsOptions demoFsState (sOf ".env") = false :=
  ⟨C8_opaque_refusals.1 demoFsOptions demoFsState (sOf ".env") (sOf "Access denied") rfl,
   C8_opaque_refusals.2.2.2.2.2.2 demoFsOptions demoFsState (sOf ".env") (by decide)⟩

/-! ### Lemmas for the address classifier -/

theorem dropWhile_all_false {p : Char → Bool} {l : Str}
    (h : ∀ c ∈ l, p c = false) : l.dropWhile p = l := by
  cases l with
  | nil => rfl
  | cons c r => simp [List.dropWhile, h c (by simp)]

theorem jsTrim_id {s : Str} (h : ∀ c ∈ s, jsWS c = false) : jsTrim s = s := by
  unfold jsTrim
  rw [dropWhile_all_false h,
      dropWhile_all_false (fun c hc => h c (List.mem_reverse.mp hc)),
      List.reverse_reverse]

theorem lowStr_id {s : Str} (h : ∀ c ∈ s, lowChar c = c) : lowStr s = s := by
  unfold lowStr
  have h2 : s.map lowChar = s.map id := List.map_congr_left (by
    intro a ha; simpa using h a ha)
  simpa using h2

theorem isPrefixOf_append_self (p s : Str) : p.isPrefixOf (p ++ s) = true := by
  induction p with
  | nil => simp
  | cons c r ih => simp [List.isPrefixOf, ih]

theorem jsIncludes_single_false {x : Char} {s : Str}
    (h : ∀ c ∈ s, (x == c) = false) : jsIncludes [x] s = false := by
  induction s with
  | nil => rfl
  | cons c r ih =>
    have hc := h c (by simp)
    have hr := ih (fun d hd => h d (by simp [hd]))
    simp [jsIncludes, List.isPrefixOf, hc, hr]

theorem splitP_nosep {p : Char → Bool} {s : Str}
    (h : ∀ c ∈ s, p c = false) : splitP p s = [s] := by
  induction s with
  | nil => rfl
  | cons c r ih =>
    have hc := h c (by simp)
    have hr := ih (fun d hd => h d (by simp [hd]))
    simp [splitP, hc, hr]

theorem splitP_sep (p : Char → Bool) (sep : Char) (hsep : p sep = true)
    (s1 s2 : Str) (h : ∀ c ∈ s1, p c = false) :
    splitP p (s1 ++ sep :: s2) = s1 :: splitP p s2 := by
  induction s1 with
  | nil => simp [splitP, hsep]
  | cons c r ih =>
    have hc : p c = false := h c (by simp)
    have hr := ih (fun d hd => h d (by simp [hd]))
    simp [splitP, hc, hr]

theorem digit_char_facts {c : Char} (h : isDig c = true) :
    lowChar c = c ∧ jsWS c = false ∧ (c == '[') = false ∧
    (':' == c) = false ∧ (c == '.') = false := by
  have hr : 48 ≤ c.toNat ∧ c.toNat ≤ 57 := of_decide_eq_true h
  obtain ⟨h1, h2⟩ := hr
  refine ⟨?_, ?_, ?_, ?_, ?_⟩
  · unfold lowChar; rw [if_neg (by omega)]
  · unfold jsWS
    apply decide_eq_false
    intro hy
    rcases hy with h3 | h3 | h3 | h3 | h3 | h3 | h3 <;> omega
  · cases hq : c == '[' with
    | false => rfl
    | true => rw [eq_of_beq hq] at h; exact absurd h (by decide)
  · cases hq : ':' == c with
    | false => rfl
    | true => rw [← eq_of_beq hq] at h; exact absurd h (by decide)
  · cases hq : c == '.' with
    | false => rfl
    | true => rw [eq_of_beq hq] at h; exact absurd h (by decide)

/-- `some a == some b` for the option `BEq`. -/
theorem some_beq_some {α : Type} [BEq α] (a b : α) :
    (some a == some b) = (a == b) := rfl

set_option maxRecDepth 4000 in
theorem natStrFacts : ∀ n : Nat, n < 256 →
    ((natStr n).all isDig = true ∧ (natStr n == []) = false ∧
     jsParseInt10 (natStr n) = some (n : Int)) := by decide

theorem intBound256 (n : Nat) (hn : n < 256) :
    (decide ((n : Int) < 0) || decide ((n : Int) > 255)) = false := by
  simp only [Bool.or_eq_false_iff, decide_eq_false_iff_not]
  omega

theorem parseIPv4_render {a b c d : Nat}
    (ha : a < 256) (hb : b < 256) (hc : c < 256) (hd : d < 256) :
    parseIPv4 (ipv4Str a b c d) = some [a, b, c, d] := by
  have nodot : ∀ (n : Nat), n < 256 → ∀ ch ∈ natStr n, (ch == '.') = false := by
    intro n hn ch hch
    have hdg := List.all_eq_true.mp (natStrFacts n hn).1 ch hch
    exact (digit_char_facts hdg).2.2.2.2
  unfold parseIPv4 ipv4Str
  rw [splitP_sep (fun c => c == '.') '.' (by decide) _ _ (nodot a ha),
      splitP_sep (fun c => c == '.') '.' (by decide) _ _ (nodot b hb),
      splitP_sep (fun c => c == '.') '.' (by decide) _ _ (nodot c hc),
      splitP_nosep (nodot d hd)]
  unfold pipv4Core
  simp only [List.length_cons, List.length_nil, List.map_cons, List.map_nil,
    (natStrFacts a ha).2.2, (natStrFacts b hb).2.2,
    (natStrFacts c hc).2.2, (natStrFacts d hd).2.2,
    List.any_cons, List.any_nil,
    intBound256 a ha, intBound256 b hb, intBound256 c hc, intBound256 d hd]
  simp [Int.toNat_natCast]

theorem ipv4Str_chars {a b c d : Nat}
    (ha : a < 256) (hb : b < 256) (hc : c < 256) (hd : d < 256) :
    ∀ ch ∈ ipv4Str a b c d, isDig ch = true ∨ ch = '.' := by
  intro ch hch
  unfold ipv4Str at hch
  have dig : ∀ (n : Nat), n < 256 → ch ∈ natStr n → isDig ch = true := by
    intro n hn hin
    exact List.all_eq_true.mp (natStrFacts n hn).1 ch hin
  rw [List.mem_append] at hch
  rcases hch with h | hch
  · exact Or.inl (dig a ha h)
  rw [List.mem_cons] at hch
  rcases hch with h | hch
  · exact Or.inr h
  rw [List.mem_append] at hch
  rcases hch with h | hch
  · exact Or.inl (dig b hb h)
  rw [List.mem_cons] at hch
  rcases hch with h | hch
  · exact Or.inr h
  rw [List.mem_append] at hch
  rcases hch with h | hch
  · exact Or.inl (dig c hc h)
  rw [List.mem_cons] at hch
  rcases hch with h | hch
  · exact Or.inr h
  exact Or.inl (dig d hd hch)

theorem stripBrackets_cons (c : Char) (l : Str) (h : (c == '[') = false) :
    stripBrackets (c :: l) = c :: l := by
  unfold stripBrackets
  rw [if_neg]
  simp [some_beq_some, h]

/-- C5: every IPv4 address in the private/CGNAT/link-local range tables
is classified private both in dotted-quad form and in the IPv4-mapped
IPv6 form obtained by prefixing `::ffff:`. -/
theorem C5_private_ip_and_mapped (a b c d : Nat)
    (ha : a < 256) (hb : b < 256) (hc : c < 256) (hd : d < 256)
    (hp : isPrivateIPv4 [a, b, c, d] = true) :
    isPrivateIP (ipv4Str a b c d) = true ∧
    isPrivateIP (sOf "::ffff:" ++ ipv4Str a b c d) = true := by
  have hchars := ipv4Str_chars ha hb hc hd
  have hnws : ∀ ch ∈ ipv4Str a b c d, jsWS ch = false := by
    intro ch hch
    rcases hchars ch hch with h | h
    · exact (digit_char_facts h).2.1
    · rw [h]; decide
  have hlow : ∀ ch ∈ ipv4Str a b c d, lowChar ch = ch := by
    intro ch hch
    rcases hchars ch hch with h | h
    · exact (digit_char_facts h).1
    · rw [h]; decide
  obtain ⟨c0, r0, hna⟩ : ∃ c0 r0, natStr a = c0 :: r0 := by
    cases hq : natStr a with
    | nil =>
      exfalso
      have h2 := (natStrFacts a ha).2.1
      rw [hq] at h2
      exact absurd h2 (by decide)
    | cons x y => exact ⟨x, y, rfl⟩
  have hs : ipv4Str a b c d =
      c0 :: (r0 ++ ('.' :: (natStr b ++ ('.' :: (natStr c ++ ('.' :: natStr d)))))) := by
    unfold ipv4Str; rw [hna]; rfl
  have hc0 : isDig c0 = true :=
    List.all_eq_true.mp (natStrFacts a ha).1 c0 (by
      rw [hna]; exact List.mem_cons_self _ _)
  have htrim := jsTrim_id hnws
  have hlows := lowStr_id hlow
  have hnorm : normIp (ipv4Str a b c d) = ipv4Str a b c d := by
    unfold normIp
    rw [htrim, hlows, hs, stripBrackets_cons _ _ (digit_char_facts hc0).2.2.1, ← hs]
  have hne : (ipv4Str a b c d == ([] : Str)) = false := by rw [hs]; rfl
  have hpre : (sOf "::ffff:").isPrefixOf (ipv4Str a b c d) = false := by
    rw [hs]
    have h7 : sOf "::ffff:" = ':' :: sOf ":ffff:" := rfl
    rw [h7, List.isPrefixOf_cons₂, (digit_char_facts hc0).2.2.2.1, Bool.false_and]
  have hcolon : jsIncludes (sOf ":") (ipv4Str a b c d) = false := by
    apply jsIncludes_single_false
    intro ch hch
    rcases hchars ch hch with h | h
    · exact (digit_char_facts h).2.2.2.1
    · rw [h]; decide
  have hparse := parseIPv4_render ha hb hc hd
  have hv6 : ipv6OrV4 (ipv4Str a b c d) = true := by
    unfold ipv6OrV4
    rw [if_neg (by simp [hcolon]), hparse]
    exact hp
  constructor
  · unfold isPrivateIP
    rw [hnorm, if_neg (by simp [hne]), if_neg (by simp [hpre])]
    exact hv6
  · have hpfx : ∀ x ∈ sOf "::ffff:", jsWS x = false ∧ lowChar x = x := by decide
    have hnwsM : ∀ ch ∈ sOf "::ffff:" ++ ipv4Str a b c d, jsWS ch = false := by
      intro ch hch
      rcases List.mem_append.mp hch with h | h
      · exact (hpfx ch h).1
      · exact hnws ch h
    have hlowM : ∀ ch ∈ sOf "::ffff:" ++ ipv4Str a b c d, lowChar ch = ch := by
      intro ch hch
      rcases List.mem_append.mp hch with h | h
      · exact (hpfx ch h).2
      · exact hlow ch h
    have hsM : sOf "::ffff:" ++ ipv4Str a b c d =
        ':' :: (sOf ":ffff:" ++ ipv4Str a b c d) := rfl
    have hnormM : normIp (sOf "::ffff:" ++ ipv4Str a b c d) =
        sOf "::ffff:" ++ ipv4Str a b c d := by
      unfold normIp
      rw [jsTrim_id hnwsM, lowStr_id hlowM, hsM, stripBrackets_cons _ _ (by decide), ← hsM]
    have hneM : ((sOf "::ffff:" ++ ipv4Str a b c d) == ([] : Str)) = false := by
      rw [hsM]; rfl
    have hpreM : (sOf "::ffff:").isPrefixOf (sOf "::ffff:" ++ ipv4Str a b c d) = true :=
      isPrefixOf_append_self _ _
    have hdrop : (sOf "::ffff:" ++ ipv4Str a b c d).drop 7 = ipv4Str a b c d :=
      List.drop_left' (by rfl)
    unfold isPrivateIP
    rw [hnormM, if_neg (by simp [hneM]), if_pos hpreM, hdrop, hparse]
    exact hp

/-- C5 witness: `10.0.0.1` concretely. -/
theorem C5_private_ip_and_mapped_witness :
    isPrivateIP (ipv4Str 10 0 0 1) = true ∧
    isPrivateIP (sOf "::ffff:" ++ ipv4Str 10 0 0 1) = true :=
  C5_private_ip_and_mapped 10 0 0 1 (by decide) (by decide) (by decide) (by decide)
    (by decide)

/-! ### Lemmas about the LLM budgets -/

theorem checkBudgetErr_none {cfg : LlmCfg} {st : LlmState} {est : Nat}
    (h : checkBudgetErr cfg st est = none) :
    st.requestCount < cfg.maxRequests ∧
    st.totalTokensUsed + est ≤ cfg.maxTotalTokens := by
  unfold checkBudgetErr at h
  split at h
  · exact absurd h (by simp)
  split at h
  · exact absurd h (by simp)
  next h1 h2 => exact ⟨Nat.lt_of_not_le h1, Nat.le_of_not_lt h2⟩

theorem predictM_admitted {cfg : LlmCfg} {st : LlmState} {prompt : Str}
    {osys : Option Str} {omt : Option Nat} {base : Except Str Str}
    (h : (predictM cfg st prompt osys omt base).admitted = true) :
    st.requestCount < cfg.maxRequests ∧
    st.totalTokensUsed + predictEstimate cfg prompt osys omt ≤ cfg.maxTotalTokens := by
  unfold predictM at h
  cases hv : validatePromptErr cfg (applyFilter cfg.promptFilter prompt) osys with
  | some e => rw [hv] at h; exact absurd h (by simp)
  | none =>
    rw [hv] at h
    dsimp only at h
    split at h
    · exact absurd h (by simp)
    cases hbud : checkBudgetErr cfg st (predictEstimate cfg prompt osys omt) with
    | some e => rw [hbud] at h; exact absurd h (by simp)
    | none => exact checkBudgetErr_none hbud

theorem predictM_base_failure (cfg : LlmCfg) (st : LlmState) (prompt : Str)
    (osys : Option Str) (omt : Option Nat) (e : Str) :
    (predictM cfg st prompt osys omt (.error e)).state = st := by
  unfold predictM
  cases hv : validatePromptErr cfg (applyFilter cfg.promptFilter prompt) osys with
  | some e2 => rfl
  | none =>
    dsimp only
    split
    · rfl
    cases hbud : checkBudgetErr cfg st (predictEstimate cfg prompt osys omt) with
    | some e2 => rfl
    | none => rfl

theorem embedM_base_failure (cfg : LlmCfg) (st : LlmState) (text : Str) (e : Str) :
    (embedM cfg st text (.error e)).state = st := by
  unfold embedM
  split
  · rfl
  cases hbud : checkBudgetErr cfg st (estimateTokens text) with
  | some e2 => rfl
  | none => rfl

theorem llmStep_reqCount (cfg : LlmCfg) (st : LlmState) (c : LlmCall)
    (h : st.requestCount ≤ cfg.maxRequests) :
    (llmStep cfg st c).requestCount ≤ cfg.maxRequests := by
  cases c with
  | predictC p osys omt base =>
    show (predictM cfg st p osys omt base).state.requestCount ≤ cfg.maxRequests
    unfold predictM
    cases hv : validatePromptErr cfg (applyFilter cfg.promptFilter p) osys with
    | some e => exact h
    | none =>
      dsimp only
      split
      · exact h
      cases hbud : checkBudgetErr cfg st (predictEstimate cfg p osys omt) with
      | some e => exact h
      | none =>
        cases base with
        | error e => exact h
        | ok resp => exact (checkBudgetErr_none hbud).1
  | embedC t base =>
    show (embedM cfg st t base).state.requestCount ≤ cfg.maxRequests
    unfold embedM
    split
    · exact h
    cases hbud : checkBudgetErr cfg st (estimateTokens t) with
    | some e => exact h
    | none =>
      cases base with
      | error e => exact h
      | ok v => exact (checkBudgetErr_none hbud).1

theorem llmStep_tokens (cfg : LlmCfg) (st : LlmState) (c : LlmCall)
    (hb : callBounded cfg c = true)
    (h : st.totalTokensUsed ≤ cfg.maxTotalTokens) :
    (llmStep cfg st c).totalTokensUsed ≤ cfg.maxTotalTokens := by
  cases c with
  | predictC p osys omt base =>
    show (predictM cfg st p osys omt base).state.totalTokensUsed ≤ cfg.maxTotalTokens
    unfold predictM
    cases hv : validatePromptErr cfg (applyFilter cfg.promptFilter p) osys with
    | some e => exact h
    | none =>
      dsimp only
      split
      · exact h
      cases hbud : checkBudgetErr cfg st (predictEstimate cfg p osys omt) with
      | some e => exact h
      | none =>
        cases base with
        | error e => exact h
        | ok resp =>
          have h1 := (checkBudgetErr_none hbud).2
          unfold predictEstimate at h1
          have h2 : estimateTokens (applyFilter cfg.responseFilter resp) ≤
              effMaxResp cfg omt := by
            unfold callBounded at hb
            exact of_decide_eq_true hb
          show st.totalTokensUsed +
              (estimateTokens (applyFilter cfg.promptFilter p) +
               estimateTokens (osys.getD []) +
               estimateTokens (applyFilter cfg.responseFilter resp)) ≤
              cfg.maxTotalTokens
          omega
  | embedC t base =>
    show (embedM cfg st t base).state.totalTokensUsed ≤ cfg.maxTotalTokens
    unfold embedM
    split
    · exact h
    cases hbud : checkBudgetErr cfg st (estimateTokens t) with
    | some e => exact h
    | none =>
      cases base with
      | error e => exact h
      | ok v => exact (checkBudgetErr_none hbud).2

theorem llmRun_reqCount : ∀ (calls : List LlmCall) (cfg : LlmCfg) (st : LlmState),
    st.requestCount ≤ cfg.maxRequests →
    (llmRun cfg st calls).requestCount ≤ cfg.maxRequests := by
  intro calls
  induction calls with
  | nil => intro cfg st h; exact h
  | cons c r ih => intro cfg st h; exact ih cfg _ (llmStep_reqCount cfg st c h)

theorem llmRun_tokens : ∀ (calls : List LlmCall) (cfg : LlmCfg) (st : LlmState),
    boundedResponses cfg calls = true →
    st.totalTokensUsed ≤ cfg.maxTotalTokens →
    (llmRun cfg st calls).totalTokensUsed ≤ cfg.maxTotalTokens := by
  intro calls
  induction calls with
  | nil => intro cfg st _ h; exact h
  | cons c r ih =>
    intro cfg st hb h
    unfold boundedResponses at hb
    rw [List.all_cons, Bool.and_eq_true] at hb
    exact ih cfg _ hb.2 (llmStep_tokens cfg st c hb.1 h)

set_option maxRecDepth 10000 in
/-- C6 counterexample: with a 100-token session budget, a single
admitted `predict` whose base function returns a 500-character response
(longer than its 1-token cap promises) leaves `tokens_used = 125`,
exceeding the budget — the invariant `tokens_used ≤ budget` fails as
stated. -/
theorem C6_token_budget_overrun :
    (predictM cexLlmCfg {} [] none (some 1)
        (.ok (List.replicate 500 'x'))).admitted = true ∧
    (predictM cexLlmCfg {} [] none (some 1)
        (.ok (List.replicate 500 'x'))).state.totalTokensUsed = 125 ∧
    cexLlmCfg.maxTotalTokens = 100 := by
  refine ⟨by decide, by decide, rfl⟩

/-- C6 (amended): requests_made never exceeds the request cap; a
request is admitted only when the current totals plus its estimate fit
the caps; a failed base call leaves the session state unchanged; and
`tokens_used ≤ budget` holds over any run in which each successful
response respects the response cap it was admitted under (without that
proviso the bound can be exceeded, see the counterexample). -/
theorem C6_llm_budget_discipline :
    (∀ (cfg : LlmCfg) (st : LlmState) (prompt : Str) (osys : Option Str)
        (omt : Option Nat) (base : Except Str Str),
      (predictM cfg st prompt osys omt base).admitted = true →
        st.requestCount < cfg.maxRequests ∧
        st.totalTokensUsed + predictEstimate cfg prompt osys omt ≤ cfg.maxTotalTokens) ∧
    (∀ (cfg : LlmCfg) (st : LlmState) (prompt : Str) (osys : Option Str)
        (omt : Option Nat) (e : Str),
      (predictM cfg st prompt osys omt (.error e)).state = st) ∧
    (∀ (cfg : LlmCfg) (st : LlmState) (text e : Str),
      (embedM cfg st text (.error e)).state = st) ∧
    (∀ (cfg : LlmCfg) (st : LlmState) (calls : List LlmCall),
      st.requestCount ≤ cfg.maxRequests →
      (llmRun cfg st calls).requestCount ≤ cfg.maxRequests) ∧
    (∀ (cfg : LlmCfg) (st : LlmState) (calls : List LlmCall),
      boundedResponses cfg calls = true →
      st.totalTokensUsed ≤ cfg.maxTotalTokens →
      (llmRun cfg st calls).totalTokensUsed ≤ cfg.maxTotalTokens) :=
  ⟨fun _ _ _ _ _ _ h => predictM_admitted h,
   predictM_base_failure,
   embedM_base_failure,
   fun cfg st calls h => llmRun_reqCount calls cfg st h,
   fun cfg st calls hb h => llmRun_tokens calls cfg st hb h⟩

/-- C6 witness: concrete instantiations — an admitted call's budgets
held at admission, a failed base call changed nothing, and a bounded
two-call run stayed within both caps. -/
theorem C6_llm_budget_discipline_witness :
    ((0 : Nat) < cexLlmCfg.maxRequests ∧
      (0 : Nat) + predictEstimate cexLlmCfg [] none (some 1) ≤ cexLlmCfg.maxTotalTokens) ∧
    (predictM cexLlmCfg {} (sOf "hi") none none (.error (sOf "boom"))).state =
      ({} : LlmState) ∧
    (llmRun cexLlmCfg {} [.predictC [] none (some 1) (.ok (sOf "ok")),
        .embedC (sOf "abc") (.error (sOf "x"))]).totalTokensUsed ≤
      cexLlmCfg.maxTotalTokens :=
  ⟨by
    have h := C6_llm_budget_discipline.1 cexLlmCfg {} [] none (some 1)
      (.ok (sOf "ok")) (by decide)
    exact h,
   C6_llm_budget_discipline.2.1 cexLlmCfg {} (sOf "hi") none none (sOf "boom"),
   C6_llm_budget_discipline.2.2.2.2 cexLlmCfg {}
     [.predictC [] none (some 1) (.ok (sOf "ok")),
      .embedC (sOf "abc") (.error (sOf "x"))] (by decide) (by decide)⟩

/-! ### Lemmas about the rate limiter -/

theorem strBeq_comm (x y : Str) : (x == y) = (y == x) := by
  cases hq : x == y with
  | true => rw [eq_of_beq hq]; simp
  | false =>
    cases hw : y == x with
    | false => rfl
    | true => rw [eq_of_beq hw] at hq; simp at hq

theorem beq_false_symm {k k2 : Str} (h : (k2 == k) = false) : (k == k2) = false := by
  rw [strBeq_comm]; exact h

theorem rlLookup_nil (k : Str) : rlLookup [] k = none := rfl

theorem rlLookup_filter_ne {m : ReqMap} {k k2 : Str} (h : (k2 == k) = false) :
    rlLookup (m.filter (fun kv => !(kv.1 == k))) k2 = rlLookup m k2 := by
  induction m with
  | nil => rfl
  | cons kv rest ih =>
    rw [List.filter_cons]
    cases hkv : kv.1 == k with
    | true =>
      have h1 : (kv.1 == k2) = false := by
        rw [eq_of_beq hkv]; exact beq_false_symm h
      simp only [hkv, Bool.not_true, Bool.false_eq_true, if_false]
      unfold rlLookup
      rw [List.find?_cons_of_neg _ (by simp [h1])]
      exact ih
    | false =>
      simp only [hkv, Bool.not_false, if_true]
      unfold rlLookup
      cases hkv2 : kv.1 == k2 with
      | true =>
        rw [List.find?_cons_of_pos _ (by simp [hkv2]),
            List.find?_cons_of_pos _ (by simp [hkv2])]
      | false =>
        rw [List.find?_cons_of_neg _ (by simp [hkv2]),
            List.find?_cons_of_neg _ (by simp [hkv2])]
        exact ih

theorem rlLookup_set (m : ReqMap) (k : Str) (v : ReqState) (k2 : Str) :
    rlLookup (rlSet m k v) k2 =
      if (k2 == k) = true then some v else rlLookup m k2 := by
  unfold rlSet
  cases hq : k2 == k with
  | true =>
    rw [if_pos rfl]
    have hk : k2 = k := eq_of_beq hq
    subst hk
    unfold rlLookup
    rw [List.find?_cons_of_pos _ (by simp)]
  | false =>
    rw [if_neg (by simp)]
    have h2 := beq_false_symm hq
    unfold rlLookup
    rw [List.find?_cons_of_neg _ (by simp [h2])]
    exact rlLookup_filter_ne hq

theorem getReq_concurrent (s : RLState) (k : Str) :
    (getReq s k).concurrent = reqConc s k := by
  unfold getReq reqConc
  cases rlLookup s.requesterState k <;> rfl

theorem setReqS_reqState (s : RLState) (k : Str) (v : ReqState) :
    (setReqS s k v).requesterState = rlSet s.requesterState k v := rfl

theorem reqConc_setReqS (s : RLState) (k : Str) (v : ReqState)
    (hv : v.concurrent = reqConc s k) (k2 : Str) :
    reqConc (setReqS s k v) k2 = reqConc s k2 := by
  unfold reqConc
  rw [setReqS_reqState, rlLookup_set]
  cases hq : k2 == k with
  | true =>
    rw [if_pos rfl, eq_of_beq hq]
    exact hv
  | false => rw [if_neg (by simp)]

theorem reqConc_updDiag (s : RLState) (k : Str) (reqs : List Int)
    (cd : Option Int) (k2 : Str) :
    reqConc (updDiag s k reqs cd) k2 = reqConc s k2 :=
  reqConc_setReqS s k ⟨reqs, (getReq s k).concurrent, cd⟩
    (getReq_concurrent s k) k2

theorem reqConc_ensure (s : RLState) (k k2 : Str) :
    reqConc (ensureReq s k) k2 = reqConc s k2 := by
  unfold ensureReq
  cases hl : rlLookup s.requesterState k with
  | some st => rfl
  | none =>
    unfold reqConc
    dsimp only
    rw [rlLookup_set]
    cases hq : k2 == k with
    | true =>
      rw [if_pos rfl]
      rw [eq_of_beq hq, hl]
    | false => rw [if_neg (by simp)]

theorem glob_ensure (s : RLState) (k : Str) :
    (ensureReq s k).globalConcurrent = s.globalConcurrent := by
  unfold ensureReq
  cases rlLookup s.requesterState k <;> rfl

theorem check_pres (cfg : RLConfig) (s : RLState) (id : Str) (now : Int) :
    (check cfg s id now).2.globalConcurrent = s.globalConcurrent ∧
    ∀ k2, reqConc (check cfg s id now).2 k2 = reqConc s k2 := by
  unfold check
  split
  · exact ⟨rfl, fun _ => rfl⟩
  · have hD : ∀ s3 now2,
        (checkD cfg s3 now2).2.globalConcurrent = s3.globalConcurrent ∧
        ∀ k2, reqConc (checkD cfg s3 now2).2 k2 = reqConc s3 k2 := by
      intro s3 now2
      unfold checkD
      split <;> exact ⟨rfl, fun _ => rfl⟩
    have hC : ∀ s2 k now2,
        (checkC cfg s2 k now2).2.globalConcurrent = s2.globalConcurrent ∧
        ∀ k2, reqConc (checkC cfg s2 k now2).2 k2 = reqConc s2 k2 := by
      intro s2 k now2
      unfold checkC
      split
      · exact ⟨rfl, fun k2 => reqConc_updDiag s2 k _ _ k2⟩
      split
      · exact ⟨rfl, fun _ => rfl⟩
      · obtain ⟨h1, h2⟩ := hD { s2 with globalRequests := prune s2.globalRequests cfg.glWindowMs now2 } now2
        exact ⟨h1, fun k2 => h2 k2⟩
    have hB : ∀ s1 k now2,
        (checkB cfg s1 k now2).2.globalConcurrent = s1.globalConcurrent ∧
        ∀ k2, reqConc (checkB cfg s1 k now2).2 k2 = reqConc s1 k2 := by
      intro s1 k now2
      unfold checkB
      split
      · exact ⟨rfl, fun _ => rfl⟩
      split
      · exact ⟨rfl, fun _ => rfl⟩
      · obtain ⟨h1, h2⟩ := hC (updDiag s1 k (prune (getReq s1 k).requests cfg.perWindowMs now2)
          (getReq s1 k).cooldownUntil) k now2
        exact ⟨h1, fun k2 => (h2 k2).trans (reqConc_updDiag s1 k _ _ k2)⟩
    obtain ⟨h1, h2⟩ := hB (ensureReq s (normId id)) (normId id) now
    exact ⟨h1.trans (glob_ensure s (normId id)),
           fun k2 => (h2 k2).trans (reqConc_ensure s (normId id) k2)⟩

theorem recordStart_glob (s : RLState) (id : Str) (now : Int) :
    (recordStart s id now).globalConcurrent = s.globalConcurrent + 1 := by
  unfold recordStart bump
  dsimp only
  rw [glob_ensure]

theorem bump_reqState (s : RLState) (k : Str) (now : Int) :
    (bump s k now).requesterState =
      rlSet s.requesterState k
        ⟨(getReq s k).requests ++ [now], (getReq s k).concurrent + 1,
         (getReq s k).cooldownUntil⟩ := rfl

theorem recordStart_reqConc (s : RLState) (id : Str) (now : Int) (k2 : Str) :
    reqConc (recordStart s id now) k2 =
      if (k2 == normId id) = true then reqConc s k2 + 1 else reqConc s k2 := by
  unfold recordStart reqConc
  rw [bump_reqState, rlLookup_set]
  cases hq : k2 == normId id with
  | true =>
    rw [if_pos rfl, if_pos rfl]
    show (getReq (ensureReq s (normId id)) (normId id)).concurrent + 1 = _
    rw [getReq_concurrent, reqConc_ensure, eq_of_beq hq]
    rfl
  | false =>
    rw [if_neg (by simp), if_neg (by simp)]
    exact reqConc_ensure s (normId id) k2

theorem decReq_glob (s : RLState) (k : Str) :
    (decReq s k).globalConcurrent = s.globalConcurrent := by
  unfold decReq
  cases rlLookup s.requesterState k with
  | none => rfl
  | some st =>
    dsimp only
    split <;> rfl

theorem decReq_reqConc (s : RLState) (k : Str) (h : 0 < reqConc s k) (k2 : Str) :
    reqConc (decReq s k) k2 =
      if (k2 == k) = true then reqConc s k2 - 1 else reqConc s k2 := by
  unfold decReq
  cases hl : rlLookup s.requesterState k with
  | none =>
    exfalso
    unfold reqConc at h
    rw [hl] at h
    exact absurd h (by simp)
  | some st =>
    have hst : st.concurrent = reqConc s k := by unfold reqConc; rw [hl]
    dsimp only
    rw [if_pos (by rw [hst]; exact h)]
    unfold reqConc setReqS
    dsimp only
    rw [rlLookup_set]
    cases hq : k2 == k with
    | true =>
      rw [if_pos rfl, if_pos rfl]
      rw [eq_of_beq hq, hl]
    | false => rw [if_neg (by simp), if_neg (by simp)]

theorem recordEnd_eff (s : RLState) (id : Str)
    (h1 : 0 < reqConc s (normId id)) (h2 : 0 < s.globalConcurrent) :
    (recordEnd s id).globalConcurrent = s.globalConcurrent - 1 ∧
    ∀ k2, reqConc (recordEnd s id) k2 =
      if (k2 == normId id) = true then reqConc s k2 - 1 else reqConc s k2 := by
  unfold recordEnd decGlobal
  rw [decReq_glob]
  rw [if_pos h2]
  constructor
  · rfl
  · intro k2
    have : reqConc { decReq s (normId id) with
        globalConcurrent := s.globalConcurrent - 1 } k2 =
        reqConc (decReq s (normId id)) k2 := rfl
    rw [this, decReq_reqConc s (normId id) h1 k2]

/-- Membership from a successful `contains`. -/
theorem mem_of_contains {l : List Str} {a : Str} (h : l.contains a = true) : a ∈ l := by
  obtain ⟨b, hb, he⟩ := List.contains_iff_exists_mem_beq.mp h
  rw [eq_of_beq he]
  exact hb

theorem rlExec_inv {cfg : RLConfig} {c c' : RLState × List Str} {e : RLEvent}
    (hInv : RLInv c) (h : rlExec cfg c e = some c') : RLInv c' := by
  obtain ⟨s, opens⟩ := c
  obtain ⟨hg, hr⟩ := hInv
  dsimp only at hg hr
  cases e with
  | attempt id tC tS =>
    unfold rlExec at h
    have h2 : (if (check cfg s id tC).1.allowed = true then
        some (recordStart (check cfg s id tC).2 id tS, normId id :: opens)
      else some ((check cfg s id tC).2, opens)) = some c' := h
    by_cases hal : (check cfg s id tC).1.allowed = true
    · -- admitted
      rw [if_pos hal] at h2
      have hc : c' = (recordStart (check cfg s id tC).2 id tS, normId id :: opens) :=
        (Option.some_inj.mp h2).symm
      subst hc
      obtain ⟨hcg, hcr⟩ := check_pres cfg s id tC
      constructor
      · show (recordStart (check cfg s id tC).2 id tS).globalConcurrent =
          ((normId id :: opens).length : Int)
        rw [recordStart_glob, hcg, hg]
        simp
      · intro k
        show reqConc (recordStart (check cfg s id tC).2 id tS) k =
          ((normId id :: opens).count k : Int)
        rw [recordStart_reqConc, hcr k, hr k, List.count_cons]
        cases hq : k == normId id with
        | true =>
          rw [if_pos rfl, if_pos (by rw [strBeq_comm]; exact hq)]
          simp
        | false =>
          rw [if_neg (by simp), if_neg (by rw [strBeq_comm] at hq; simp [hq])]
          simp
    · -- rejected
      rw [if_neg hal] at h2
      have hc : c' = ((check cfg s id tC).2, opens) := (Option.some_inj.mp h2).symm
      subst hc
      obtain ⟨hcg, hcr⟩ := check_pres cfg s id tC
      exact ⟨hcg.trans hg, fun k => (hcr k).trans (hr k)⟩
  | finish id =>
    unfold rlExec at h
    have h2 : (if opens.contains (normId id) = true then
        some (recordEnd s id, opens.erase (normId id)) else none) = some c' := h
    by_cases hmemb : opens.contains (normId id) = true
    · rw [if_pos hmemb] at h2
      have hc : c' = (recordEnd s id, opens.erase (normId id)) :=
        (Option.some_inj.mp h2).symm
      subst hc
      have hmem : normId id ∈ opens := mem_of_contains hmemb
      have hcnt : 0 < opens.count (normId id) := List.count_pos_iff.mpr hmem
      have h1 : 0 < reqConc s (normId id) := by
        rw [hr (normId id)]
        exact_mod_cast hcnt
      have h2 : 0 < s.globalConcurrent := by
        rw [hg]
        have := List.length_pos_of_mem hmem
        exact_mod_cast this
      obtain ⟨he1, he2⟩ := recordEnd_eff s id h1 h2
      constructor
      · show (recordEnd s id).globalConcurrent = ((opens.erase (normId id)).length : Int)
        rw [he1, hg, List.length_erase_of_mem hmem]
        have := List.length_pos_of_mem hmem
        omega
      · intro k
        show reqConc (recordEnd s id) k = (((opens.erase (normId id)).count k) : Int)
        rw [he2 k, List.count_erase]
        cases hq : k == normId id with
        | true =>
          rw [if_pos rfl, hr k]
          rw [if_pos (by rw [strBeq_comm]; exact hq)]
          have : 0 < opens.count k := by rw [eq_of_beq hq]; exact hcnt
          omega
        | false =>
          rw [if_neg (by simp), hr k]
          rw [if_neg (by rw [strBeq_comm] at hq; simp [hq])]
          omega
    · rw [if_neg hmemb] at h2
      exact absurd h2 (by simp)

theorem rlRun_inv : ∀ (evs : List RLEvent) (cfg : RLConfig)
    (c c' : RLState × List Str), RLInv c → rlRun cfg c evs = some c' → RLInv c' := by
  intro evs
  induction evs with
  | nil =>
    intro cfg c c' hInv h
    unfold rlRun at h
    exact (Option.some_inj.mp h) ▸ hInv
  | cons e r ih =>
    intro cfg c c' hInv h
    unfold rlRun at h
    cases he : rlExec cfg c e with
    | none => rw [he] at h; exact absurd h (by simp)
    | some c2 =>
      rw [he] at h
      exact ih cfg c2 c' (rlExec_inv hInv he) h

/-- C7: over any executor-driven interleaving of `check`, `recordStart`
and `recordEnd` (every admitted request bracketed by one `recordStart`
and exactly one `recordEnd`), the per-requester and global concurrent
counters never go negative, and both return to zero whenever no
admitted request is in flight. -/
theorem C7_concurrent_counters (cfg : RLConfig) (evs : List RLEvent)
    (c : RLState × List Str) (h : rlRun cfg (rlInit, []) evs = some c) :
    (0 ≤ c.1.globalConcurrent ∧ ∀ k, 0 ≤ reqConc c.1 k) ∧
    (c.2 = [] → c.1.globalConcurrent = 0 ∧ ∀ k, reqConc c.1 k = 0) := by
  have hInit : RLInv (rlInit, []) := by
    constructor
    · rfl
    · intro k; rfl
  obtain ⟨hg, hr⟩ := rlRun_inv evs cfg (rlInit, []) c hInit h
  constructor
  · constructor
    · rw [hg]; exact_mod_cast Nat.zero_le _
    · intro k; rw [hr k]; exact_mod_cast Nat.zero_le _
  · intro hempty
    constructor
    · rw [hg, hempty]; rfl
    · intro k; rw [hr k, hempty]; rfl

/-- C7 witness: a concrete admitted request and its completion leave
both counters at zero. -/
theorem C7_concurrent_counters_witness :
    rlRun demoRLCfg (rlInit, []) [.attempt (sOf "u1") 0 1, .finish (sOf "u1")] =
      some (⟨[(sOf "u1", ⟨[(1 : Int)], 0, none⟩)], [(1 : Int)], 0⟩, []) ∧
    (⟨[(sOf "u1", ⟨[(1 : Int)], 0, none⟩)], [(1 : Int)], 0⟩ : RLState).globalConcurrent = 0 ∧
    ∀ k, reqConc ⟨[(sOf "u1", ⟨[(1 : Int)], 0, none⟩)], [(1 : Int)], 0⟩ k = 0 :=
  ⟨by decide,
   (C7_concurrent_counters demoRLCfg [.attempt (sOf "u1") 0 1, .finish (sOf "u1")]
     (⟨[(sOf "u1", ⟨[(1 : Int)], 0, none⟩)], [(1 : Int)], 0⟩, []) (by decide)).2 rfl |>.1,
   (C7_concurrent_counters demoRLCfg [.attempt (sOf "u1") 0 1, .finish (sOf "u1")]
     (⟨[(sOf "u1", ⟨[(1 : Int)], 0, none⟩)], [(1 : Int)], 0⟩, []) (by decide)).2 rfl |>.2⟩

/-! ### C4: the trust-ceiling tables and refusal behaviour -/

/-- C4: main sessions accept every trust level; DMs refuse exactly
`shell` and `full`; groups refuse exactly `write`, `shell` and `full`;
public sources accept only `none` and `network`.  When the ceiling
refuses, the executor's result has `success = false` and carries the
refusal reason, and the interpreter is never invoked. -/
theorem C4_trust_ceiling :
    (∀ l : TrustLevel, (validateTrustForSource l .main).allowed = true) ∧
    (∀ l : TrustLevel,
      (validateTrustForSource l .dm).allowed = !(l == .shell || l == .full)) ∧
    (∀ l : TrustLevel,
      (validateTrustForSource l .group).allowed =
        !(l == .write || l == .shell || l == .full)) ∧
    (∀ l : TrustLevel,
      (validateTrustForSource l .public).allowed = (l == .none || l == .network)) ∧
    (∀ (opts : ExecOptsM) (sk : LoadedSkillM) (ctx : ExecCtxM)
        (vmOut : Except Str RunResultM),
      (validateSkillM sk).1 = true →
      (validateTrustForSource (effLevel opts sk) ctx.source).allowed = false →
      (executeSkillInternalM opts sk ctx vmOut).res.success = false ∧
      (executeSkillInternalM opts sk ctx vmOut).res.error =
        (validateTrustForSource (effLevel opts sk) ctx.source).reason ∧
      (executeSkillInternalM opts sk ctx vmOut).invoked = false) := by
  refine ⟨?_, ?_, ?_, ?_, ?_⟩
  · intro l; cases l <;> rfl
  · intro l; cases l <;> rfl
  · intro l; cases l <;> rfl
  · intro l; cases l <;> rfl
  · intro opts sk ctx vmOut hv ht
    refine ⟨?_, ?_, ?_⟩ <;> simp [executeSkillInternalM, hv, ht]

/-- C4 witness: a valid shell-level skill arriving from a public source
is refused without running. -/
theorem C4_trust_ceiling_witness :
    (executeSkillInternalM defaultExecOpts demoSkillShell publicExecCtx
      (.ok ⟨Option.none, 0⟩)).res.success = false ∧
    (executeSkillInternalM defaultExecOpts demoSkillShell publicExecCtx
      (.ok ⟨Option.none, 0⟩)).invoked = false :=
  ⟨(C4_trust_ceiling.2.2.2.2 defaultExecOpts demoSkillShell publicExecCtx
      (.ok ⟨Option.none, 0⟩) (by decide) (by decide)).1,
   (C4_trust_ceiling.2.2.2.2 defaultExecOpts demoSkillShell publicExecCtx
      (.ok ⟨Option.none, 0⟩) (by decide) (by decide)).2.2⟩

/-! ### C3: the constructor defaults shadow the per-level fuel/timeout -/

/-- C3: with a default-constructed executor every VM invocation receives
fuel 1000 and timeout 30000 ms — `this.options.defaultFuel ?? fuel`
resolves to the constructor's unconditional defaults — although the
trust tables prescribe 5000 fuel and 300000 ms for a `full` skill, which
is concretely invoked with 1000/30000. -/
theorem C3_defaults_shadow_trust_tables :
    (∀ (sk : LoadedSkillM) (ctx : ExecCtxM) (vmOut : Except Str RunResultM),
      (executeSkillInternalM defaultExecOpts sk ctx vmOut).invoked = true →
      (executeSkillInternalM defaultExecOpts sk ctx vmOut).vmFuel = some 1000 ∧
      (executeSkillInternalM defaultExecOpts sk ctx vmOut).vmTimeoutMs = some 30000) ∧
    (executeSkillInternalM defaultExecOpts demoSkillFull demoExecCtx
      (.ok ⟨Option.none, 5⟩)).invoked = true ∧
    getDefaultFuel .full = 5000 ∧ getDefaultTimeout .full = 300000 := by
  refine ⟨?_, by decide, rfl, rfl⟩
  intro sk ctx vmOut h
  cases hb1 : (validateSkillM sk).1 with
  | false => simp [executeSkillInternalM, hb1] at h
  | true =>
    cases hb2 : (validateTrustForSource (effLevel defaultExecOpts sk) ctx.source).allowed with
    | false => simp [executeSkillInternalM, hb1, hb2] at h
    | true =>
      cases vmOut with
      | error e =>
        constructor <;>
          · simp only [executeSkillInternalM, hb1, hb2]
            rfl
      | ok r =>
        constructor <;>
          · simp only [executeSkillInternalM, hb1, hb2]
            rfl

/-- C3 witness: the concretely invoked full-trust run received fuel 1000
and timeout 30000. -/
theorem C3_defaults_shadow_trust_tables_witness :
    (executeSkillInternalM defaultExecOpts demoSkillFull demoExecCtx
      (.ok ⟨Option.none, 5⟩)).vmFuel = some 1000 ∧
    (executeSkillInternalM defaultExecOpts demoSkillFull demoExecCtx
      (.ok ⟨Option.none, 5⟩)).vmTimeoutMs = some 30000 :=
  C3_defaults_shadow_trust_tables.1 demoSkillFull demoExecCtx
    (.ok ⟨Option.none, 5⟩) (by decide)

/-! ### C9: what validateSkill actually rejects -/

/-- C9 counterexample: a skill whose source is an `import` statement
passes `validateSkill` with an empty error list, so `import` is not
among the rejected constructs. -/
theorem C9_import_passes_validation :
    jsIncludes (sOf "import") importSkill.source = true ∧
    (validateSkillM importSkill).1 = true ∧
    (validateSkillM importSkill).2 = [] := by
  refine ⟨by decide, by decide, by decide⟩

/-- C9 (amended): `validateSkill` accepts exactly when none of its six
dangerous patterns — `eval\s*\(`, `Function\s*\(`, `require\s*\(`,
`__proto__`, `.constructor`, `.prototype` — occurs in the source and the
AST root opcode is `seq`; `import` and `class` are not checked. -/
theorem C9_validation_exact (sk : LoadedSkillM) :
    (validateSkillM sk).1 =
      (!pEval sk.source && !pFunctionCtor sk.source && !pRequire sk.source &&
       !pProto sk.source && !pCtorAccess sk.source && !pProtoAccess sk.source &&
       (sk.astRootOp == sOf "seq")) := by
  unfold validateSkillM validateSkillErrors
  cases pEval sk.source <;> cases pFunctionCtor sk.source <;>
    cases pRequire sk.source <;> cases pProto sk.source <;>
    cases pCtorAccess sk.source <;> cases pProtoAccess sk.source <;>
    cases sk.astRootOp == sOf "seq" <;> rfl

/-! ### C10: writableDirs is never consulted -/

/-- C10: capability assembly is invariant under the context's
`writableDirs`; `createWorkspaceCapability` ignores its `writableDirs`
argument outright; the `write`, `shell` and `full` levels nevertheless
hand out a filesystem capability rooted at the workdir with
`allowWrite`/`allowCreate` enabled (`allowDelete` only at `full`); the
workspace preset keeps the default `["**/*"]` allow-list with write and
create enabled; and `**/*` matches every path. -/
theorem C10_writableDirs_never_consulted :
    (∀ (α β γ δ : Type) (config : TrustLevelConfigM α β γ δ)
        (ctx : TrustContextM) (d1 d2 : Option (List Str)),
      getCapsM config { ctx with writableDirs := d1 } =
      getCapsM config { ctx with writableDirs := d2 }) ∧
    (∀ (root : Str) (d1 d2 : List Str),
      createWorkspaceCapability root d1 = createWorkspaceCapability root d2) ∧
    ((createWorkspaceCapability (sOf "/ws") []).allowWrite = true ∧
     (createWorkspaceCapability (sOf "/ws") []).allowCreate = true ∧
     (createWorkspaceCapability (sOf "/ws") []).allowPatterns = [sOf "**/*"]) ∧
    (∀ ctx : TrustContextM,
      (capsFor ({ level := .write } : TrustLevelConfigM Unit Unit Unit Unit) ctx).files =
        some ⟨ctx.workdir, true, true, false, Option.none⟩ ∧
      (capsFor ({ level := .shell } : TrustLevelConfigM Unit Unit Unit Unit) ctx).files =
        some ⟨ctx.workdir, true, true, false, Option.none⟩ ∧
      (capsFor ({ level := .full } : TrustLevelConfigM Unit Unit Unit Unit) ctx).files =
        some ⟨ctx.workdir, true, true, true, Option.none⟩) ∧
    (∀ p : Str, matchesGlob p (sOf "**/*") = true) := by
  refine ⟨?_, ?_, ⟨rfl, rfl, rfl⟩, ?_, ?_⟩
  · intro α β γ δ config ctx d1 d2
    rfl
  · intro root d1 d2; rfl
  · intro ctx; exact ⟨rfl, rfl, rfl⟩
  · intro p; rfl

end Claw

